import Mathlib

/-!
# Ocean Clog — verification of the run state machine, scheduler and scoped storage

Shallow embedding of the `ocean` core (TypeScript, libSQL):

* `engine/run.ts`  — run rows, `signalRun`, `acquireRun`, `consumePendingInput`,
  `releaseRun`, `releaseRunAtomic`;
* `ocean.ts`       — `backoffMs`, `applyOutcome`, the `advance()` scheduler step;
* `clogs/tool-runtime.ts` — the per-tick tool invoker with its 1-read/1-write
  budget and the read-before-write (RBW) ledger;
* `storage/read_scoped.ts`, `storage/write_scoped.ts`, `storage/storage.ts`,
  `engine/tick.ts`, `engine/events.ts` — the scoped storage engine.

The SQL tables become Lean lists, rows become structures, and each SQL
statement becomes an executable function on those lists.  JSON payloads are
opaque to the core, so they are embedded as an uninterpreted `Val := String`;
SQL `NULL` / JS `null`-or-`undefined` on a column becomes `Option`.  SQL
three-valued comparison is kept: `wake_at <= now` is false when `wake_at` is
NULL.  Timestamps are `Int` (epoch milliseconds).
-/

namespace OceanClog

/-- Opaque JSON payload.  The core never introspects stored values
(`state`, `pending_input`, storage/event payloads), so they are embedded as an
uninterpreted string (think: the serialized JSON text). -/
abbrev Val := String

/-- A row of the `runs` table, from `RunRow` in `engine/run.ts`. -/
structure RunRow where
  run_id : String
  session_id : String
  clog_id : String
  status : String
  state : Val
  locked_by : Option String
  lock_expires_at : Option Int
  attempt : Nat
  max_attempts : Nat
  wake_at : Option Int
  pending_input : Option Val
  last_error : Option String
  created_ts : Int
  updated_ts : Int
deriving Repr, DecidableEq

/-- The `runs` table. -/
abbrev RunsDb := List RunRow

/-- `SELECT ... FROM runs WHERE run_id = ? LIMIT 1` (`getRun` in `engine/run.ts`). -/
def getRunD (db : RunsDb) (runId : String) : Option RunRow :=
  db.find? (fun r => r.run_id == runId)

/-- `UPDATE runs SET ... WHERE run_id = ?`: apply the row update `f` to every
row whose `run_id` matches. -/
def updateRow (db : RunsDb) (runId : String) (f : RunRow → RunRow) : RunsDb :=
  db.map (fun r => if r.run_id == runId then f r else r)

/-- `UPDATE runs SET ... WHERE <p>`: apply `f` to every row satisfying `p`. -/
def updateWhere (db : RunsDb) (p : RunRow → Bool) (f : RunRow → RunRow) : RunsDb :=
  db.map (fun r => if p r then f r else r)

/-- The row-level effect of `signalRun` (`engine/run.ts`): set
`pending_input = input ?? null` (a JS `undefined` argument and an explicit
`null` both store SQL NULL, hence a single `Option Val`), flip the status to
`"pending"` through the SQL `CASE WHEN status IN ('idle','waiting')`, and bump
`updated_ts`. -/
def signalRowUpdate (input : Option Val) (now : Int) (r : RunRow) : RunRow :=
  { r with
    pending_input := input
    status := if r.status == "idle" || r.status == "waiting" then "pending" else r.status
    updated_ts := now }

/-- `signalRun(db, runId, input?)`: one UPDATE over the rows matching `runId`. -/
def signalRun (db : RunsDb) (runId : String) (input : Option Val) (now : Int) : RunsDb :=
  updateRow db runId (signalRowUpdate input now)

/-- SQL `col <= now` under three-valued logic: NULL compares to nothing. -/
def sqlLeNow : Option Int → Int → Bool
  | none, _ => false
  | some t, now => t ≤ now

/-- The eligibility predicate of `acquireRun` (`engine/run.ts`):
`(status = 'pending' OR (status = 'waiting' AND wake_at <= now)) AND
(locked_by IS NULL OR lock_expires_at <= now)`. -/
def eligible (now : Int) (r : RunRow) : Bool :=
  (r.status == "pending" || (r.status == "waiting" && sqlLeNow r.wake_at now))
    && (r.locked_by.isNone || sqlLeNow r.lock_expires_at now)

/-- The SET clause of `acquireRun`: `locked_by = instanceId`,
`lock_expires_at = lockExpires`, `updated_ts = now`. -/
def lockSet (instanceId : String) (lockExpires now : Int) (r : RunRow) : RunRow :=
  { r with
    locked_by := some instanceId
    lock_expires_at := some lockExpires
    updated_ts := now }

/-- `acquireRun(db, instanceId, lockMs)` (`engine/run.ts`): a single atomic
UPDATE whose `WHERE` re-checks eligibility and pins `run_id` to a
`SELECT ... LIMIT 1` subquery over the same predicate, with `.returning()`
giving back the updated row.  The subquery's unordered `LIMIT 1` is embedded
as "the first eligible row in list order". -/
def acquireRun (db : RunsDb) (instanceId : String) (lockMs now : Int) :
    Option RunRow × RunsDb :=
  match db.find? (eligible now) with
  | none => (none, db)
  | some r =>
      let p : RunRow → Bool := fun x => eligible now x && x.run_id == r.run_id
      let f := lockSet instanceId (now + lockMs) now
      (((db.filter p).map f).head?, db.map (fun x => if p x then f x else x))

/-- `consumePendingInput` (`engine/run.ts`): `UPDATE runs SET pending_input =
NULL WHERE run_id = ?` (note: `updated_ts` is not touched there). -/
def consumePendingInput (db : RunsDb) (runId : String) : RunsDb :=
  updateRow db runId (fun r => { r with pending_input := none })

/-- The patch argument of `releaseRun` (`engine/run.ts`).  Each optional field
distinguishes "absent from the patch object" (outer `none`, the column keeps
its value) from "explicitly null" (`some none`, the column is set to NULL). -/
structure ReleasePatch where
  status : String
  attempt : Option Nat := none
  wake_at : Option (Option Int) := none
  last_error : Option (Option String) := none
  pending_input : Option (Option Val) := none
deriving Repr, DecidableEq

/-- The row-level effect of `releaseRun`: always clear the lock, set the
status and `updated_ts`, and set exactly the patch fields that were supplied. -/
def releaseSet (now : Int) (p : ReleasePatch) (r : RunRow) : RunRow :=
  { r with
    locked_by := none
    lock_expires_at := none
    status := p.status
    updated_ts := now
    attempt := p.attempt.getD r.attempt
    wake_at := p.wake_at.getD r.wake_at
    last_error := p.last_error.getD r.last_error
    pending_input := p.pending_input.getD r.pending_input }

/-- `releaseRun(db, runId, patch)` (`engine/run.ts`). -/
def releaseRun (db : RunsDb) (runId : String) (p : ReleasePatch) (now : Int) : RunsDb :=
  updateRow db runId (releaseSet now p)

/-- The `noSignal` argument of `releaseRunAtomic` (`engine/run.ts`). -/
structure AtomicNoSignal where
  status : String
  attempt : Nat
  wake_at : Option Int
  last_error : Option String
  pending_input_json : Option Val
deriving Repr, DecidableEq

/-- The row-level effect of `releaseRunAtomic`'s single UPDATE
(`engine/run.ts`): every SET clause is a
`CASE WHEN pending_input IS NOT NULL THEN ... ELSE ... END`, so a signal that
arrived during the tick wins (status `pending`, counters reset, input kept)
and otherwise the caller's `noSignal` values are applied; the lock is cleared
either way. -/
def releaseRunAtomicSet (now : Int) (ns : AtomicNoSignal) (r : RunRow) : RunRow :=
  if r.pending_input.isSome then
    { r with
      locked_by := none
      lock_expires_at := none
      updated_ts := now
      status := "pending"
      attempt := 0
      wake_at := none
      last_error := none }
  else
    { r with
      locked_by := none
      lock_expires_at := none
      updated_ts := now
      status := ns.status
      attempt := ns.attempt
      wake_at := ns.wake_at
      last_error := ns.last_error
      pending_input := ns.pending_input_json }

/-- `releaseRunAtomic(db, runId, noSignal)` (`engine/run.ts`): one UPDATE
statement containing the signal-detection CASE. -/
def releaseRunAtomic (db : RunsDb) (runId : String) (ns : AtomicNoSignal) (now : Int) : RunsDb :=
  updateRow db runId (releaseRunAtomicSet now ns)

/-- `backoffMs` (`ocean.ts`): `Math.min(1000 * Math.pow(2, attempt), 60_000)`. -/
def backoffMs (attempt : Nat) : Int :=
  min (1000 * 2 ^ attempt) 60000

/-- `TickOutcome` (`clogs/types.ts`).  `cont` embeds the `"continue"` variant
(`continue` is reserved in Lean's do-notation); its optional `input` and
`done`'s optional `output` collapse `undefined` and absence into `Option`. -/
inductive TickOutcome where
  | ok : TickOutcome
  | done (output : Option Val) : TickOutcome
  | cont (input : Option Val) : TickOutcome
  | wait (wakeAt : Int) : TickOutcome
  | retry (error : String) : TickOutcome
  | failed (error : String) : TickOutcome
deriving Repr, DecidableEq

/-- The `status` tag string of a `TickOutcome` (`outcome.status` in TS). -/
def outcomeStatus : TickOutcome → String
  | .ok => "ok"
  | .done _ => "done"
  | .cont _ => "continue"
  | .wait _ => "wait"
  | .retry _ => "retry"
  | .failed _ => "failed"

/-- The database calls `applyOutcome` (`ocean.ts`) issues against the run
store, in order: a fresh `getRun` read, a `releaseRun(runId, patch)`, or a
`releaseRunAtomic(runId, noSignal)`.  (The last never occurs in the code; it
is listed so that the spec's "release is the single-statement
signal-detection UPDATE" can be stated and compared against the trace.) -/
inductive DbOp where
  | getRunOp (runId : String) : DbOp
  | releaseRunOp (runId : String) (patch : ReleasePatch) : DbOp
  | releaseRunAtomicOp (runId : String) (noSignal : AtomicNoSignal) : DbOp
deriving Repr, DecidableEq

/-- Is the operation a release (of either flavour)? -/
def DbOp.isRelease : DbOp → Bool
  | .getRunOp _ => false
  | .releaseRunOp _ _ => true
  | .releaseRunAtomicOp _ _ => true

/-- Is the operation the atomic signal-detecting release? -/
def DbOp.isAtomicRelease : DbOp → Bool
  | .releaseRunAtomicOp _ _ => true
  | _ => false

/-- `applyOutcome(db, run, outcome)` (`ocean.ts`), instrumented: the first
component is the resulting `runs` table, the second the ordered list of run
store calls the function makes.  Branch by branch this mirrors the TS switch:

* `ok` / `continue` / `wait` and the non-terminal `retry` branch first re-read
  the row (`getRun`) and test `freshRow?.pending_input != null` to detect a
  signal that arrived during handler execution, then call the plain
  `releaseRun` with a patch computed in JS;
* `done`, `failed` and the exhausted `retry` branch call `releaseRun`
  directly with a terminal patch. -/
def applyOutcomeInstr (db : RunsDb) (run : RunRow) (outcome : TickOutcome) (now : Int) :
    RunsDb × List DbOp :=
  match outcome with
  | .ok =>
      let hasNewInput := ((getRunD db run.run_id).bind RunRow.pending_input).isSome
      let patch : ReleasePatch :=
        { status := if hasNewInput then "pending" else "idle"
          attempt := some 0
          last_error := some none
          wake_at := some none
          pending_input := if hasNewInput then none else some none }
      (releaseRun db run.run_id patch now,
       [.getRunOp run.run_id, .releaseRunOp run.run_id patch])
  | .done _ =>
      let patch : ReleasePatch :=
        { status := "done"
          attempt := some 0
          last_error := some none
          wake_at := some none
          pending_input := some none }
      (releaseRun db run.run_id patch now, [.releaseRunOp run.run_id patch])
  | .cont input =>
      let hasNewContSignal := ((getRunD db run.run_id).bind RunRow.pending_input).isSome
      let patch : ReleasePatch :=
        { status := "pending"
          pending_input := if hasNewContSignal then none else some input
          attempt := some 0
          last_error := some none
          wake_at := some none }
      (releaseRun db run.run_id patch now,
       [.getRunOp run.run_id, .releaseRunOp run.run_id patch])
  | .wait wakeAt =>
      let hasNewWaitInput := ((getRunD db run.run_id).bind RunRow.pending_input).isSome
      let patch : ReleasePatch :=
        if hasNewWaitInput then
          { status := "pending"
            attempt := some 0
            wake_at := some none
            last_error := some none
            pending_input := none }
        else
          { status := "waiting"
            attempt := some 0
            wake_at := some (some wakeAt)
            last_error := some none
            pending_input := some none }
      (releaseRun db run.run_id patch now,
       [.getRunOp run.run_id, .releaseRunOp run.run_id patch])
  | .retry error =>
      let nextAttempt := run.attempt + 1
      if run.max_attempts ≤ nextAttempt then
        let patch : ReleasePatch :=
          { status := "failed"
            attempt := some nextAttempt
            last_error := some (some error)
            wake_at := some none
            pending_input := some none }
        (releaseRun db run.run_id patch now, [.releaseRunOp run.run_id patch])
      else
        let hasNewSignal := ((getRunD db run.run_id).bind RunRow.pending_input).isSome
        let patch : ReleasePatch :=
          { status := if hasNewSignal then "pending" else "waiting"
            attempt := some (if hasNewSignal then 0 else nextAttempt)
            wake_at := if hasNewSignal then some none else some (some (now + backoffMs nextAttempt))
            last_error := if hasNewSignal then some none else some (some error)
            pending_input := if hasNewSignal then none else some run.pending_input }
        (releaseRun db run.run_id patch now,
         [.getRunOp run.run_id, .releaseRunOp run.run_id patch])
  | .failed error =>
      let patch : ReleasePatch :=
        { status := "failed"
          last_error := some (some error)
          wake_at := some none
          pending_input := some none }
      (releaseRun db run.run_id patch now, [.releaseRunOp run.run_id patch])

/-- The state effect of `applyOutcome`. -/
def applyOutcome (db : RunsDb) (run : RunRow) (outcome : TickOutcome) (now : Int) : RunsDb :=
  (applyOutcomeInstr db run outcome now).1

/-- The run store calls `applyOutcome` issues. -/
def applyOutcomeOps (db : RunsDb) (run : RunRow) (outcome : TickOutcome) (now : Int) : List DbOp :=
  (applyOutcomeInstr db run outcome now).2

/-- The result of `advance()` (`ocean.ts`): `{advanced, results: [{runId,
outcome}]}`, results as `(runId, outcome-status)` pairs. -/
structure AdvanceResult where
  advanced : Nat
  results : List (String × String)
deriving Repr, DecidableEq

/-- External signals landing while the handler executes, applied through
`signalRun`: `(runId, input)` pairs. -/
def applySignals (db : RunsDb) (sigs : List (String × Option Val)) (now : Int) : RunsDb :=
  sigs.foldl (fun d sg => signalRun d sg.1 sg.2 now) db

/-- One `advance()` call (`ocean.ts`), restricted to its effect on the `runs`
table:

1. `acquireRun`; on `null` return `{advanced: 0, results: []}`;
2. if the acquired snapshot's `pending_input != null`, `consumePendingInput`;
3. no registered `onAdvance` handler ⇒ `releaseRun` with
   `{status: "failed", last_error: "no onAdvance handler"}`;
4. otherwise invoke the handler with `(run.pending_input, {attempt})` and
   apply its outcome.

The adapter handler is external user code; it is embedded as a pure function
`Option Val → Nat → TickOutcome` (a handler that throws is one that returns
the `retry` outcome the scheduler synthesizes from the exception), and any
signals it (or a concurrent caller) fires during the tick are passed in
`midSignals` and applied before the outcome, which is when the release
observes them.  The tick-entity insert touches only the `ocean_ticks` table
and is therefore invisible here. -/
def advanceStep (db : RunsDb) (instanceId : String) (lockMs now : Int)
    (handler? : Option (Option Val → Nat → TickOutcome))
    (midSignals : List (String × Option Val)) : AdvanceResult × RunsDb :=
  match acquireRun db instanceId lockMs now with
  | (none, db1) => ({ advanced := 0, results := [] }, db1)
  | (some run, db1) =>
      let db2 := if run.pending_input.isSome then consumePendingInput db1 run.run_id else db1
      match handler? with
      | none =>
          let db3 := releaseRun db2 run.run_id
            { status := "failed", last_error := some (some "no onAdvance handler") } now
          ({ advanced := 1, results := [(run.run_id, "failed")] }, db3)
      | some h =>
          let db3 := applySignals db2 midSignals now
          let outcome := h run.pending_input run.attempt
          let db4 := applyOutcome db3 run outcome now
          ({ advanced := 1, results := [(run.run_id, outcomeStatus outcome)] }, db4)

/-! ## Scoped storage, RBW ledger and the tool invoker -/

/-- Error codes, from `ERR` in `core/errors.ts`. -/
def ERR_RBW_VIOLATION : String := "OCEAN_RBW_VIOLATION"

def ERR_STORAGE_READ_ALREADY_CALLED : String := "OCEAN_STORAGE_READ_ALREADY_CALLED"

def ERR_STORAGE_WRITE_ALREADY_CALLED : String := "OCEAN_STORAGE_WRITE_ALREADY_CALLED"

def ERR_STORAGE_WRITE_BEFORE_READ : String := "OCEAN_STORAGE_WRITE_BEFORE_READ"

def ERR_INVALID_SCOPE : String := "OCEAN_INVALID_SCOPE"

def ERR_UNKNOWN_TOOL : String := "OCEAN_UNKNOWN_TOOL"

def ERR_UNKNOWN_CLOG : String := "OCEAN_UNKNOWN_CLOG"

def ERR_UNKNOWN_ENDPOINT : String := "OCEAN_UNKNOWN_ENDPOINT"

/-- `OceanError` (`core/errors.ts`): a code, a message, and an opaque
diagnostic `details` payload (the structured detail objects of the source are
not interpreted by any caller, so they are embedded as `none`). -/
structure OceanErr where
  code : String
  message : String
  details : Option Val := none
deriving Repr, DecidableEq

/-- The RBW read ledger (`ReadLedger` in `storage/read_scoped.ts`): a global
flag plus sets of session ids, run ids, and `runId|tickId|rowId` keys.  The
JS `Set`s are embedded as lists with `contains` membership. -/
structure ReadLedger where
  global : Bool
  session : List String
  run : List String
  tickRows : List String
deriving Repr, DecidableEq

/-- The empty ledger every fresh invoker starts from
(`toolInvokerFactoryForTickSync` in `ocean.ts`). -/
def emptyLedger : ReadLedger :=
  { global := false, session := [], run := [], tickRows := [] }

/-- The tick-row ledger key: `` `${runId}|${tickId}|${rowId}` ``. -/
def tickKey (runId tickId rowId : String) : String :=
  runId ++ "|" ++ tickId ++ "|" ++ rowId

/-- The tick execution context (`TickToolContext` in `clogs/tool-runtime.ts`). -/
structure TickCtx where
  clogId : String
  sessionId : String
  runId : String
  tickId : String
deriving Repr, DecidableEq

/-- A storage row value together with its `updated_ts`. -/
structure StoredVal where
  value : Val
  updated_ts : Int
deriving Repr, DecidableEq

/-- Upsert into an association list (`INSERT ... ON CONFLICT DO UPDATE` of
`storage/storage.ts`). -/
def setAssoc [BEq α] (l : List (α × StoredVal)) (k : α) (v : Val) (now : Int) :
    List (α × StoredVal) :=
  if l.any (fun p => p.1 == k) then
    l.map (fun p => if p.1 == k then (p.1, StoredVal.mk v now) else p)
  else
    l ++ [(k, StoredVal.mk v now)]

/-- Delete from an association list (`DELETE ... WHERE key = ?`). -/
def delAssoc [BEq α] (l : List (α × StoredVal)) (k : α) : List (α × StoredVal) :=
  l.filter (fun p => !(p.1 == k))

/-- An `events` row (`engine/events.ts` / schema).  `randomId("evt")` is an
external random source; it is embedded as a deterministic counter-derived id,
which preserves everything the core relies on (uniqueness). -/
structure EventRow where
  seq : Nat
  id : String
  ts : Int
  scope_kind : String
  session_id : Option String
  run_id : Option String
  tick_id : Option String
  type : String
  payload : Val
deriving Repr, DecidableEq

/-- The storage side of the database: entity tables (sessions, runs as ids,
ticks) for the cascades, the four scoped storage tables, and the event log.
Keys follow the schema: global by `clog_id`, session by `(clog_id,
session_id)`, run by `(clog_id, run_id)`, tick by `(clog_id, run_id, tick_id,
row_id)`. -/
structure StorageDb where
  sessions : List String
  runEntities : List (String × String)
  ticks : List (String × String)
  globalRows : List (String × StoredVal)
  sessionRows : List ((String × String) × StoredVal)
  runRows : List ((String × String) × StoredVal)
  tickRows : List ((String × String × String × String) × StoredVal)
  events : List EventRow
deriving Repr, DecidableEq

/-- `deleteTickEntity` (`engine/tick.ts`): delete the tick row; the
`ocean_storage_tick` FK cascades its storage rows. -/
def deleteTickEntityS (db : StorageDb) (runId tickId : String) : StorageDb :=
  { db with
    ticks := db.ticks.filter (fun t => !(t.1 == runId && t.2 == tickId))
    tickRows := db.tickRows.filter (fun p => !(p.1.2.1 == runId && p.1.2.2.1 == tickId)) }

/-- `deleteRunEntity` (`engine/run.ts`): delete the run; FKs cascade its
ticks, its run storage and its tick storage. -/
def deleteRunEntityS (db : StorageDb) (runId : String) : StorageDb :=
  { db with
    runEntities := db.runEntities.filter (fun p => !(p.1 == runId))
    ticks := db.ticks.filter (fun t => !(t.1 == runId))
    runRows := db.runRows.filter (fun p => !(p.1.2 == runId))
    tickRows := db.tickRows.filter (fun p => !(p.1.2.1 == runId)) }

/-- `deleteSessionEntity` (`engine/run.ts`): delete the session; FKs cascade
its runs, their ticks, and the session/run/tick storage underneath. -/
def deleteSessionEntityS (db : StorageDb) (sessionId : String) : StorageDb :=
  let deadRuns := (db.runEntities.filter (fun p => p.2 == sessionId)).map (fun p => p.1)
  { db with
    sessions := db.sessions.filter (fun s => !(s == sessionId))
    runEntities := db.runEntities.filter (fun p => !(p.2 == sessionId))
    sessionRows := db.sessionRows.filter (fun p => !(p.1.2 == sessionId))
    ticks := db.ticks.filter (fun t => !(deadRuns.contains t.1))
    runRows := db.runRows.filter (fun p => !(deadRuns.contains p.1.2))
    tickRows := db.tickRows.filter (fun p => !(deadRuns.contains p.1.2.1)) }

/-- `StorageWriteOp` (`storage/write_scoped.ts`). -/
inductive StorageWriteOp where
  | globalSet (value : Val) : StorageWriteOp
  | globalClear : StorageWriteOp
  | sessionSet (sessionId : String) (value : Val) : StorageWriteOp
  | sessionClear (sessionId : String) : StorageWriteOp
  | runSet (runId : String) (value : Val) : StorageWriteOp
  | runClear (runId : String) : StorageWriteOp
  | tickSet (runId tickId rowId : String) (value : Val) : StorageWriteOp
  | tickDel (runId tickId rowId : String) : StorageWriteOp
  | sessionDelete (sessionId : String) : StorageWriteOp
  | runDelete (runId : String) : StorageWriteOp
  | tickDelete (runId tickId : String) : StorageWriteOp
deriving Repr, DecidableEq

/-- The validation pass of `storageWriteScoped` (`storage/write_scoped.ts`),
for one op: the scope identifiers must match the tick context
(`INVALID_SCOPE`) and the targeted identity must be in the read ledger
(`RBW_VIOLATION`), in the order the source checks them.  Returns the error
the source would throw, or `none`. -/
def validateWriteOp (ctx : TickCtx) (ledger : ReadLedger) : StorageWriteOp → Option OceanErr
  | .globalSet _ | .globalClear =>
      if ledger.global then none
      else some { code := ERR_RBW_VIOLATION, message := "must read global row before writing global row" }
  | .sessionSet sessionId _ | .sessionClear sessionId =>
      if !(sessionId == ctx.sessionId) then
        some { code := ERR_INVALID_SCOPE, message := "sessionId does not match current tick context" }
      else if !(ledger.session.contains sessionId) then
        some { code := ERR_RBW_VIOLATION, message := "must read session row before writing session row" }
      else none
  | .sessionDelete sessionId =>
      if !(sessionId == ctx.sessionId) then
        some { code := ERR_INVALID_SCOPE, message := "sessionId does not match current tick context" }
      else if !(ledger.session.contains sessionId) then
        some { code := ERR_RBW_VIOLATION, message := "must read session row before deleting session entity" }
      else none
  | .runSet runId _ | .runClear runId =>
      if !(runId == ctx.runId) then
        some { code := ERR_INVALID_SCOPE, message := "runId does not match current tick context" }
      else if !(ledger.run.contains runId) then
        some { code := ERR_RBW_VIOLATION, message := "must read run row before writing run row" }
      else none
  | .runDelete runId =>
      if !(runId == ctx.runId) then
        some { code := ERR_INVALID_SCOPE, message := "runId does not match current tick context" }
      else if !(ledger.run.contains runId) then
        some { code := ERR_RBW_VIOLATION, message := "must read run row before deleting run entity" }
      else none
  | .tickSet runId tickId rowId _ | .tickDel runId tickId rowId =>
      if !(runId == ctx.runId && tickId == ctx.tickId) then
        some { code := ERR_INVALID_SCOPE, message := "tick scope does not match current tick context" }
      else if !(ledger.tickRows.contains (tickKey runId tickId rowId)) then
        some { code := ERR_RBW_VIOLATION, message := "must read tick row before writing tick row" }
      else none
  | .tickDelete runId tickId =>
      if !(runId == ctx.runId && tickId == ctx.tickId) then
        some { code := ERR_INVALID_SCOPE, message := "tick scope does not match current tick context" }
      else if ledger.tickRows.isEmpty then
        some { code := ERR_RBW_VIOLATION, message := "must read at least one tick row before deleting tick entity" }
      else none

/-- "Validate ALL ops before executing any": the first error in op order, if
any (the source loop throws at the first violating op). -/
def validateWriteOps (ctx : TickCtx) (ledger : ReadLedger) : List StorageWriteOp → Option OceanErr
  | [] => none
  | op :: rest =>
      match validateWriteOp ctx ledger op with
      | some e => some e
      | none => validateWriteOps ctx ledger rest

/-- The RBW component of validation: is the op's targeted `(scope,
identifier)` present in the read ledger?  (For `tick.delete` the source
requires that any tick row was read.) -/
def ledgerAuthorizes (ledger : ReadLedger) : StorageWriteOp → Bool
  | .globalSet _ | .globalClear => ledger.global
  | .sessionSet sessionId _ | .sessionClear sessionId | .sessionDelete sessionId =>
      ledger.session.contains sessionId
  | .runSet runId _ | .runClear runId | .runDelete runId =>
      ledger.run.contains runId
  | .tickSet runId tickId rowId _ | .tickDel runId tickId rowId =>
      ledger.tickRows.contains (tickKey runId tickId rowId)
  | .tickDelete _ _ => !ledger.tickRows.isEmpty

/-- The execution pass of `storageWriteScoped`: one op inside the
transaction, dispatching to the `storage/storage.ts` helpers and entity
deletes, with no further checks. -/
def applyWriteOp (ctx : TickCtx) (now : Int) (db : StorageDb) : StorageWriteOp → StorageDb
  | .globalSet value => { db with globalRows := setAssoc db.globalRows ctx.clogId value now }
  | .globalClear => { db with globalRows := delAssoc db.globalRows ctx.clogId }
  | .sessionSet sessionId value =>
      { db with sessionRows := setAssoc db.sessionRows (ctx.clogId, sessionId) value now }
  | .sessionClear sessionId =>
      { db with sessionRows := delAssoc db.sessionRows (ctx.clogId, sessionId) }
  | .runSet runId value =>
      { db with runRows := setAssoc db.runRows (ctx.clogId, runId) value now }
  | .runClear runId =>
      { db with runRows := delAssoc db.runRows (ctx.clogId, runId) }
  | .tickSet runId tickId rowId value =>
      { db with tickRows := setAssoc db.tickRows (ctx.clogId, runId, tickId, rowId) value now }
  | .tickDel runId tickId rowId =>
      { db with tickRows := delAssoc db.tickRows (ctx.clogId, runId, tickId, rowId) }
  | .sessionDelete sessionId => deleteSessionEntityS db sessionId
  | .runDelete runId => deleteRunEntityS db runId
  | .tickDelete runId tickId => deleteTickEntityS db runId tickId

/-- `storageWriteScoped` (`storage/write_scoped.ts`): validate every op
first, fail-fast with the first violation and no state change; otherwise
apply all ops inside one transaction and return `{applied}`. -/
def storageWriteScoped (db : StorageDb) (ctx : TickCtx) (ops : List StorageWriteOp)
    (ledger : ReadLedger) (now : Int) : Except OceanErr (StorageDb × Nat) :=
  match validateWriteOps ctx ledger ops with
  | some e => .error e
  | none => .ok (ops.foldl (applyWriteOp ctx now) db, ops.length)

/-- The storage the caller sees after `storageWriteScoped`: on a thrown
validation error nothing was executed (and a mid-transaction failure rolls
back), so the storage is unchanged. -/
def storageAfterWrite (db : StorageDb) (ctx : TickCtx) (ops : List StorageWriteOp)
    (ledger : ReadLedger) (now : Int) : StorageDb :=
  match storageWriteScoped db ctx ops ledger now with
  | .error _ => db
  | .ok (db2, _) => db2

/-- `EventScope` (`engine/events.ts`). -/
inductive EventScope where
  | global : EventScope
  | session (sessionId : String) : EventScope
  | run (runId : String) (sessionId : Option String) : EventScope
  | tick (runId tickId : String) (sessionId : Option String) : EventScope
deriving Repr, DecidableEq

/-- `emitEvent` (`engine/events.ts`): insert one event row.  `seq` is the
database's autoincrement counter and `randomId("evt")` an external random
source; both are embedded as the deterministic successor of the current
row count, preserving monotonicity and uniqueness. -/
def emitEvent (db : StorageDb) (scope : EventScope) (type : String) (payload : Val)
    (now : Int) : StorageDb :=
  let n := db.events.length + 1
  let sessionId : Option String :=
    match scope with
    | .global => none
    | .session sid => some sid
    | .run _ sid => sid
    | .tick _ _ sid => sid
  let runId : Option String :=
    match scope with
    | .run rid _ => some rid
    | .tick rid _ _ => some rid
    | _ => none
  let tickId : Option String :=
    match scope with
    | .tick _ tid _ => some tid
    | _ => none
  let kind : String :=
    match scope with
    | .global => "global"
    | .session _ => "session"
    | .run _ _ => "run"
    | .tick _ _ _ => "tick"
  { db with
    events := db.events ++
      [{ seq := n, id := "evt_" ++ toString n, ts := now, scope_kind := kind,
         session_id := sessionId, run_id := runId, tick_id := tickId,
         type := type, payload := payload }] }

/-- `StorageReadPlan` (`storage/read_scoped.ts`).  `order` is the literal
`"asc"` / `"desc"` string when supplied. -/
inductive StorageReadPlan where
  | global : StorageReadPlan
  | session (sessionId : String) : StorageReadPlan
  | run (runId : String) : StorageReadPlan
  | tickRowsP (runId tickId : String) (rowIds : List String) : StorageReadPlan
  | historyTicksForRun (runId : String) (rowIds : Option (List String))
      (limitTicks : Option Nat) (order : Option String) : StorageReadPlan
deriving Repr, DecidableEq

/-- One tick of a history snapshot (`readTickHistoryForRun`). -/
structure HistoryTick where
  tickId : String
  updatedTs : Int
  rows : List (String × Val)
deriving Repr, DecidableEq

/-- A `read_scoped` snapshot entry (`ReadScopedOutput` in
`storage/read_scoped.ts`); the JS `Record<string, unknown>` row maps are
embedded as `(rowId, value)` lists in table order. -/
inductive SnapshotEntry where
  | globalE (value : Option Val) : SnapshotEntry
  | sessionE (sessionId : String) (value : Option Val) : SnapshotEntry
  | runE (runId : String) (value : Option Val) : SnapshotEntry
  | tickRowsE (runId tickId : String) (rows : List (String × Val)) : SnapshotEntry
  | historyTicksE (runId : String) (ticks : List HistoryTick) : SnapshotEntry
deriving Repr, DecidableEq

/-- `readGlobal` (`storage/storage.ts`). -/
def readGlobalS (db : StorageDb) (clogId : String) : Option Val :=
  (db.globalRows.find? (fun p => p.1 == clogId)).map (fun p => p.2.value)

/-- `readSession` (`storage/storage.ts`). -/
def readSessionS (db : StorageDb) (clogId sessionId : String) : Option Val :=
  (db.sessionRows.find? (fun p => p.1 == (clogId, sessionId))).map (fun p => p.2.value)

/-- `readRun` (`storage/storage.ts`). -/
def readRunS (db : StorageDb) (clogId runId : String) : Option Val :=
  (db.runRows.find? (fun p => p.1 == (clogId, runId))).map (fun p => p.2.value)

/-- `readTickRows` (`storage/storage.ts`): empty `rowIds` short-circuits to
an empty result; otherwise the rows of this `(clog, run, tick)` whose
`row_id` is in the requested list. -/
def readTickRowsS (db : StorageDb) (clogId runId tickId : String) (rowIds : List String) :
    List (String × Val) :=
  if rowIds.isEmpty then []
  else
    (db.tickRows.filter (fun p =>
        p.1.1 == clogId && p.1.2.1 == runId && p.1.2.2.1 == tickId
          && rowIds.contains p.1.2.2.2)).map
      (fun p => (p.1.2.2.2, p.2.value))

/-- Keys in first-occurrence order (SQL `GROUP BY`). -/
def dedupKeys : List String → List String
  | [] => []
  | x :: xs => x :: dedupKeys (xs.filter (fun y => !(y == x)))
termination_by l => l.length
decreasing_by
  simp only [List.length_cons]
  exact Nat.lt_succ_of_le (List.length_filter_le _ _)

/-- Insertion sort by an `Int` key, ascending or descending (SQL `ORDER BY`). -/
def sortByKey (key : α → Int) (asc : Bool) : List α → List α
  | [] => []
  | x :: xs =>
      let sorted := sortByKey key asc xs
      let rec insert (a : α) : List α → List α
        | [] => [a]
        | y :: ys =>
            if (if asc then key a ≤ key y else key y ≤ key a) then a :: y :: ys
            else y :: insert a ys
      insert x sorted

/-- `readTickHistoryForRun` (`storage/history.ts`): group this
`(clog, run)`'s tick storage by `tick_id` with `MAX(updated_ts)`, order by
that timestamp (`asc` or `desc`), take `limitTicks`, then collect each kept
tick's rows (filtered to `rowIds` when a non-empty list was supplied). -/
def readTickHistoryForRunS (db : StorageDb) (clogId runId : String)
    (rowIds : Option (List String)) (limitTicks : Nat) (order : String) :
    List HistoryTick :=
  let rows0 := db.tickRows.filter (fun p => p.1.1 == clogId && p.1.2.1 == runId)
  let maxUpd : String → Int := fun tid =>
    (((rows0.filter (fun p => p.1.2.2.1 == tid)).map (fun p => p.2.updated_ts)).max?).getD 0
  let tickIds :=
    (sortByKey maxUpd (order == "asc") (dedupKeys (rows0.map (fun p => p.1.2.2.1)))).take
      limitTicks
  let rowFilterOn :=
    match rowIds with
    | some l => !l.isEmpty
    | none => false
  tickIds.map (fun tid =>
    { tickId := tid
      updatedTs := maxUpd tid
      rows :=
        (rows0.filter (fun p =>
            p.1.2.2.1 == tid
              && (!rowFilterOn || (rowIds.getD []).contains p.1.2.2.2))).map
          (fun p => (p.1.2.2.2, p.2.value)) })

/-- One plan of `storageReadScoped` (`storage/read_scoped.ts`): scope checks
throw `INVALID_SCOPE`; each non-history plan records its reads into the
ledger; the history plan reads without recording. -/
def readPlanStep (db : StorageDb) (ctx : TickCtx) (ledger : ReadLedger) :
    StorageReadPlan → Except OceanErr (SnapshotEntry × ReadLedger)
  | .global =>
      .ok (.globalE (readGlobalS db ctx.clogId), { ledger with global := true })
  | .session sessionId =>
      if !(sessionId == ctx.sessionId) then
        .error { code := ERR_INVALID_SCOPE, message := "sessionId does not match current tick context" }
      else
        .ok (.sessionE sessionId (readSessionS db ctx.clogId sessionId),
          { ledger with session := ledger.session ++ [sessionId] })
  | .run runId =>
      if !(runId == ctx.runId) then
        .error { code := ERR_INVALID_SCOPE, message := "runId does not match current tick context" }
      else
        .ok (.runE runId (readRunS db ctx.clogId runId),
          { ledger with run := ledger.run ++ [runId] })
  | .tickRowsP runId tickId rowIds =>
      if !(runId == ctx.runId && tickId == ctx.tickId) then
        .error { code := ERR_INVALID_SCOPE, message := "tick scope does not match current tick context" }
      else
        .ok (.tickRowsE runId tickId (readTickRowsS db ctx.clogId runId tickId rowIds),
          { ledger with tickRows := ledger.tickRows ++ rowIds.map (tickKey runId tickId) })
  | .historyTicksForRun runId rowIds limitTicks order =>
      if !(runId == ctx.runId) then
        .error { code := ERR_INVALID_SCOPE, message := "history runId does not match current tick context" }
      else
        .ok (.historyTicksE runId
          (readTickHistoryForRunS db ctx.clogId runId rowIds (limitTicks.getD 50)
            (order.getD "desc")),
          ledger)

/-- `storageReadScoped` (`storage/read_scoped.ts`): process the plans in
order, threading the (caller-owned, mutated-in-place) ledger; a scope
violation aborts the loop but the ledger entries recorded by earlier plans
persist. -/
def storageReadScoped (db : StorageDb) (ctx : TickCtx) :
    List StorageReadPlan → ReadLedger → Except OceanErr (List SnapshotEntry) × ReadLedger
  | [], ledger => (.ok [], ledger)
  | p :: rest, ledger =>
      match readPlanStep db ctx ledger p with
      | .error e => (.error e, ledger)
      | .ok (entry, ledger2) =>
          match storageReadScoped db ctx rest ledger2 with
          | (.ok entries, lf) => (.ok (entry :: entries), lf)
          | (.error e, lf) => (.error e, lf)

/-- A tool call (`ToolCall` in `tools/types.ts`): the source dispatches on
the `name` string; each handled name is a constructor carrying its typed
input, and `other` covers every unhandled name (→ `UNKNOWN_TOOL`). -/
inductive ToolCall where
  | eventsEmit (scope : EventScope) (type : String) (payload : Val) : ToolCall
  | clogCall (address : String) (payload : Option Val) : ToolCall
  | readScoped (plans : List StorageReadPlan) : ToolCall
  | writeScoped (ops : List StorageWriteOp) : ToolCall
  | other (name : String) : ToolCall
deriving Repr, DecidableEq

/-- A successful tool output (`ToolResult.output`). -/
inductive ToolOutput where
  | emitOut : ToolOutput
  | clogOut (result : Option Val) : ToolOutput
  | readOut (snapshot : List SnapshotEntry) : ToolOutput
  | writeOut (applied : Nat) : ToolOutput
deriving Repr, DecidableEq

/-- `ToolResult` (`tools/types.ts`): `{ok: true, output}` or `{ok: false,
error: {code, message, details}}` — thrown `OceanError`s are caught by the
invoker and returned in this shape, never propagated. -/
inductive ToolResult where
  | okR (output : ToolOutput) : ToolResult
  | errR (error : OceanErr) : ToolResult
deriving Repr, DecidableEq

/-- The per-adapter, per-tick budget cell group a fresh invoker closes over
(`toolInvokerFactoryForTickSync` in `ocean.ts`): the `readCalled` /
`writeCalled` flags and the RBW ledger. -/
structure BudgetState where
  readCalled : Bool
  writeCalled : Bool
  ledger : ReadLedger
deriving Repr, DecidableEq

/-- The zeroed budget and empty ledger every factory-built invoker starts
from. -/
def freshBudget : BudgetState :=
  { readCalled := false, writeCalled := false, ledger := emptyLedger }

/-- An adapter endpoint handler.  Adapter code is an external collaborator;
it is embedded as the straight-line sequence of tool calls it performs plus
its return value. -/
structure HandlerProg where
  calls : List ToolCall
  result : Option Val
deriving Repr, DecidableEq

/-- `ClogRegistry.getHandler` (`clogs/registry.ts`): resolve `(clogId,
method)` to an endpoint handler. -/
structure ClogReg where
  getHandler : String → String → Option HandlerProg

/-- `String.split(".")`, implemented structurally so that the regular
expressions below evaluate inside the kernel. -/
def splitOnDotAux : List Char → List Char → List String
  | [], acc => [String.mk acc.reverse]
  | c :: rest, acc =>
      if c = '.' then String.mk acc.reverse :: splitOnDotAux rest []
      else splitOnDotAux rest (c :: acc)

/-- Split a string on `'.'`. -/
def splitOnDot (s : String) : List String := splitOnDotAux s.data []

/-- The `^clog\.([^.]+)\.` prefix match of `ocean.clog.call`
(`clogs/tool-runtime.ts`): the callee clog id between `clog.` and the next
dot, which must exist. -/
def parseClogPrefix (address : String) : Option String :=
  match splitOnDot address with
  | a :: cid :: _ :: _ => if a == "clog" && !cid.isEmpty then some cid else none
  | _ => none

/-- The `^clog\.([^.]+)\.([^.]+)$` full match of `toolClogCall`
(`tools/clog_call.ts`): exactly `clog.<id>.<method>`. -/
def parseClogFull (address : String) : Option (String × String) :=
  match splitOnDot address with
  | [a, cid, m] => if a == "clog" && !cid.isEmpty && !m.isEmpty then some (cid, m) else none
  | _ => none

/-- Run a sequence of tool calls through one invoker `step`, threading the
invoker's budget state and the shared database. -/
def runCallsWith (step : StorageDb → BudgetState → ToolCall → ToolResult × BudgetState × StorageDb) :
    StorageDb → BudgetState → List ToolCall → List ToolResult × BudgetState × StorageDb
  | db, s, [] => ([], s, db)
  | db, s, c :: cs =>
      let one := step db s c
      let rest := runCallsWith step one.2.2 one.2.1 cs
      (one.1 :: rest.1, rest.2.1, rest.2.2)

/-- `createToolInvoker` (`clogs/tool-runtime.ts`): dispatch one tool call
against the tick context, the invoker's budget cells and the storage
database.  Every `OceanError` a handler throws is caught and returned as an
`errR`.  For `ocean.clog.call` the callee is run with a factory-fresh
invoker (`toolInvokerFactory` = `toolInvokerFactoryForTickSync` of
`ocean.ts`): same `sessionId` / `runId` / `tickId`, the callee's `clogId`, a
zeroed budget and an empty ledger; the caller's own budget cells are not
touched, and the callee's final budget state is discarded.  `fuel` bounds
the nesting depth of peer calls (the source would simply not terminate on
unbounded mutual recursion); the callee's endpoint handler is the
registry-resolved `HandlerProg`, whose `payload` argument the embedding does
not interpret. -/
def invokeTool (reg : ClogReg) (now : Int) :
    Nat → TickCtx → StorageDb → BudgetState → ToolCall → ToolResult × BudgetState × StorageDb
  | 0, _, db, s, _ =>
      (.errR { code := "OCEAN_TOOL_ERROR", message := "peer call nesting exhausted" }, s, db)
  | Nat.succ f, ctx, db, s, call =>
      match call with
      | .eventsEmit scope ty payload =>
          (.okR .emitOut, s, emitEvent db scope ty payload now)
      | .clogCall address _payload =>
          match parseClogPrefix address with
          | none =>
              (.errR { code := ERR_UNKNOWN_ENDPOINT, message := "invalid clog address" }, s, db)
          | some calleeClogId =>
              match parseClogFull address with
              | none =>
                  (.errR { code := ERR_UNKNOWN_ENDPOINT, message := "invalid clog address" }, s, db)
              | some (cid, method) =>
                  match reg.getHandler cid method with
                  | none =>
                      (.errR { code := ERR_UNKNOWN_ENDPOINT, message := "unknown clog endpoint" }, s, db)
                  | some h =>
                      let calleeCtx : TickCtx :=
                        { clogId := calleeClogId, sessionId := ctx.sessionId,
                          runId := ctx.runId, tickId := ctx.tickId }
                      let res := runCallsWith
                        (fun db2 s2 c => invokeTool reg now f calleeCtx db2 s2 c)
                        db freshBudget h.calls
                      (.okR (.clogOut h.result), s, res.2.2)
      | .readScoped plans =>
          if s.readCalled then
            (.errR { code := ERR_STORAGE_READ_ALREADY_CALLED,
                     message := "storage.read_scoped already called for this clog in this tick" },
             s, db)
          else
            let s1 := { s with readCalled := true }
            let out := storageReadScoped db ctx plans s1.ledger
            match out.1 with
            | .ok snapshot => (.okR (.readOut snapshot), { s1 with ledger := out.2 }, db)
            | .error e => (.errR e, { s1 with ledger := out.2 }, db)
      | .writeScoped ops =>
          if !s.readCalled then
            (.errR { code := ERR_STORAGE_WRITE_BEFORE_READ,
                     message := "storage.write_scoped called before storage.read_scoped" },
             s, db)
          else if s.writeCalled then
            (.errR { code := ERR_STORAGE_WRITE_ALREADY_CALLED,
                     message := "storage.write_scoped already called for this clog in this tick" },
             s, db)
          else
            let s1 := { s with writeCalled := true }
            match storageWriteScoped db ctx ops s1.ledger now with
            | .error e => (.errR e, s1, db)
            | .ok (db2, applied) => (.okR (.writeOut applied), s1, db2)
      | .other _name =>
          (.errR { code := ERR_UNKNOWN_TOOL, message := "unknown tool" }, s, db)

/-- An adapter's straight-line tool usage: its calls run through its own
invoker in order. -/
def runCalls (reg : ClogReg) (now : Int) (fuel : Nat) (ctx : TickCtx) (db : StorageDb)
    (s : BudgetState) (calls : List ToolCall) : List ToolResult × BudgetState × StorageDb :=
  runCallsWith (fun db2 s2 c => invokeTool reg now fuel ctx db2 s2 c) db s calls

/-- Decidable equality for `Except`, for concrete evaluation of storage
results. -/
instance [DecidableEq ε] [DecidableEq α] : DecidableEq (Except ε α) := fun x y =>
  match x, y with
  | .error a, .error b =>
      if h : a = b then .isTrue (by rw [h]) else .isFalse (fun hc => h (Except.error.inj hc))
  | .ok a, .ok b =>
      if h : a = b then .isTrue (by rw [h]) else .isFalse (fun hc => h (Except.ok.inj hc))
  | .error _, .ok _ => .isFalse (fun hc => Except.noConfusion hc)
  | .ok _, .error _ => .isFalse (fun hc => Except.noConfusion hc)

/-- A plain idle run for concrete evaluation. -/
def runIdle : RunRow :=
  { run_id := "r1", session_id := "s1", clog_id := "chat", status := "idle", state := "{}",
    locked_by := none, lock_expires_at := none, attempt := 0, max_attempts := 3,
    wake_at := none, pending_input := none, last_error := none, created_ts := 0,
    updated_ts := 0 }

/-- A run already in the terminal `done` state. -/
def runDone : RunRow :=
  { run_id := "rT", session_id := "s1", clog_id := "chat", status := "done", state := "{}",
    locked_by := none, lock_expires_at := none, attempt := 0, max_attempts := 3,
    wake_at := none, pending_input := none, last_error := none, created_ts := 0,
    updated_ts := 0 }

/-- A pending run (distinct id), for concrete multi-run tables. -/
def runPending : RunRow := { runIdle with run_id := "rP", status := "pending" }

/-- A waiting run whose `wake_at` equals the concrete `now = 5`. -/
def runWaitingNow : RunRow := { runIdle with run_id := "rW", status := "waiting", wake_at := some 5 }

/-- `runIdle` after a signal wrote `pending_input = "new"`. -/
def runSignaled : RunRow := { runIdle with pending_input := some "new" }

/-- A concrete `noSignal` patch for `releaseRunAtomic`. -/
def ns0 : AtomicNoSignal :=
  { status := "idle", attempt := 0, wake_at := none, last_error := none,
    pending_input_json := none }

/-- A concrete tick context. -/
def ctx0 : TickCtx := { clogId := "a", sessionId := "s1", runId := "r1", tickId := "t1" }

/-- An empty concrete storage database. -/
def db0 : StorageDb :=
  { sessions := [], runEntities := [], ticks := [], globalRows := [], sessionRows := [],
    runRows := [], tickRows := [], events := [] }

/-- A registry with no clogs. -/
def regEmpty : ClogReg := ClogReg.mk fun _ _ => none

/-- A peer endpoint that performs its own single scoped read and write. -/
def progB : HandlerProg :=
  { calls := [.readScoped [.global], .writeScoped [.globalSet "v"]], result := some "done" }

/-- A registry exposing `clog.b.work` as `progB`. -/
def regB : ClogReg :=
  ClogReg.mk fun cid m => if cid == "b" && m == "work" then some progB else none

/-- A budget whose read was already spent. -/
def sReadDone : BudgetState := { readCalled := true, writeCalled := false, ledger := emptyLedger }

/-- A fully exhausted budget. -/
def sExhausted : BudgetState := { readCalled := true, writeCalled := true, ledger := emptyLedger }

/-! ## Lemmas about the run store -/

theorem signalRowUpdate_run_id (input : Option Val) (now : Int) (r : RunRow) :
    (signalRowUpdate input now r).run_id = r.run_id := rfl

theorem releaseSet_run_id (now : Int) (p : ReleasePatch) (r : RunRow) :
    (releaseSet now p r).run_id = r.run_id := rfl

theorem lockSet_run_id (i : String) (e now : Int) (r : RunRow) :
    (lockSet i e now r).run_id = r.run_id := rfl

/-- The row `getRunD` finds carries the looked-up key. -/
theorem getRunD_key (db : RunsDb) (rid : String) (r : RunRow)
    (h : getRunD db rid = some r) : r.run_id = rid := by
  have h2 : List.find? (fun x => x.run_id == rid) db = some r := h
  have h3 := List.find?_some h2
  simpa using h3

/-- The row `getRunD` finds is a row of the table. -/
theorem getRunD_mem (db : RunsDb) (rid : String) (r : RunRow)
    (h : getRunD db rid = some r) : r ∈ db := by
  have h2 : List.find? (fun x => x.run_id == rid) db = some r := h
  exact List.mem_of_find?_eq_some h2

/-- `getRunD` after a keyed UPDATE: the found row is transformed exactly when
its `run_id` equals the UPDATE key (for update functions that do not touch
`run_id`). -/
theorem getRunD_updateRow (db : RunsDb) (q : String) (f : RunRow → RunRow)
    (hf : ∀ x, (f x).run_id = x.run_id) (rid : String) :
    getRunD (updateRow db q f) rid
      = (getRunD db rid).map (fun x => if x.run_id == q then f x else x) := by
  induction db with
  | nil => rfl
  | cons x xs ih =>
      have hy : (if x.run_id == q then f x else x).run_id = x.run_id := by
        cases hq : x.run_id == q <;> simp [hf]
      simp only [getRunD, updateRow, List.map_cons] at ih ⊢
      rw [List.find?_cons, List.find?_cons, hy]
      cases hxr : x.run_id == rid
      · exact ih
      · rfl

/-- A keyed UPDATE hits the row the key finds. -/
theorem getRunD_updateRow_self (db : RunsDb) (rid : String) (f : RunRow → RunRow)
    (hf : ∀ x, (f x).run_id = x.run_id) (r : RunRow) (h : getRunD db rid = some r) :
    getRunD (updateRow db rid f) rid = some (f r) := by
  have hrid : r.run_id = rid := getRunD_key db rid r h
  rw [getRunD_updateRow db rid f hf rid, h]
  simp [hrid]

/-- A keyed UPDATE leaves rows under other keys alone. -/
theorem getRunD_updateRow_ne (db : RunsDb) (q : String) (f : RunRow → RunRow)
    (hf : ∀ x, (f x).run_id = x.run_id) (rid : String) (hne : rid ≠ q) :
    getRunD (updateRow db q f) rid = getRunD db rid := by
  rw [getRunD_updateRow db q f hf rid]
  cases h : getRunD db rid with
  | none => rfl
  | some r =>
      have hrid : r.run_id = rid := getRunD_key db rid r h
      have hne2 : r.run_id ≠ q := by rw [hrid]; exact hne
      simp [hne2]

/-- A predicate-guarded UPDATE whose predicate avoids `rid` leaves the row
under `rid` alone. -/
theorem getRunD_updateWhere_ne (db : RunsDb) (p : RunRow → Bool) (f : RunRow → RunRow)
    (hf : ∀ x, (f x).run_id = x.run_id) (rid : String)
    (hp : ∀ x, p x = true → x.run_id ≠ rid) :
    getRunD (updateWhere db p f) rid = getRunD db rid := by
  induction db with
  | nil => rfl
  | cons x xs ih =>
      simp only [getRunD, updateWhere, List.map_cons, List.find?_cons] at ih ⊢
      by_cases hpx : p x = true
      · rw [if_pos hpx]
        have hx : x.run_id ≠ rid := hp x hpx
        have h1 : ((f x).run_id == rid) = false := by
          rw [hf x]; simpa using hx
        have h2 : (x.run_id == rid) = false := by simpa using hx
        rw [h1, h2]
        exact ih
      · rw [if_neg hpx]
        by_cases hr : (x.run_id == rid) = true
        · rw [hr]
        · simp only [Bool.not_eq_true] at hr
          rw [hr]
          exact ih

/-- The first row `find?` returns heads the filter that pins its key. -/
theorem filter_head_of_find? (l : List RunRow) (q : RunRow → Bool) (r : RunRow)
    (h : l.find? q = some r) :
    (l.filter (fun x => q x && x.run_id == r.run_id)).head? = some r := by
  induction l with
  | nil => simp at h
  | cons x xs ih =>
      rw [List.find?_cons] at h
      by_cases hq : q x = true
      · rw [hq] at h
        simp only [cond_true, Option.some.injEq] at h
        subst h
        simp [List.filter_cons, hq]
      · simp only [Bool.not_eq_true] at hq
        rw [hq] at h
        simp only [cond_false] at h
        have : (q x && x.run_id == r.run_id) = false := by simp [hq]
        simp only [List.filter_cons, this, Bool.false_eq_true, if_false]
        exact ih h

/-- `acquireRun` when no run is eligible. -/
theorem acquireRun_none (db : RunsDb) (i : String) (lms now : Int)
    (h : db.find? (eligible now) = none) :
    acquireRun db i lms now = (none, db) := by
  simp [acquireRun, h]

/-- `acquireRun` when `r` is the first eligible run: the returned row is `r`
with the lock fields set, and the table is updated at exactly the rows the
re-checked WHERE clause matches. -/
theorem acquireRun_some (db : RunsDb) (i : String) (lms now : Int) (r : RunRow)
    (h : db.find? (eligible now) = some r) :
    acquireRun db i lms now
      = (some (lockSet i (now + lms) now r),
         updateWhere db (fun x => eligible now x && x.run_id == r.run_id)
           (lockSet i (now + lms) now)) := by
  simp only [acquireRun, h, updateWhere]
  rw [List.head?_map, filter_head_of_find? db (eligible now) r h]
  rfl

/-- `acquireRun` succeeds exactly when some row is eligible. -/
theorem acquireRun_isSome_iff (db : RunsDb) (i : String) (lms now : Int) :
    (acquireRun db i lms now).1.isSome ↔ ∃ r ∈ db, eligible now r = true := by
  cases h : db.find? (eligible now) with
  | none =>
      rw [acquireRun_none db i lms now h]
      simp only [Option.isSome_none, Bool.false_eq_true, false_iff]
      rintro ⟨r, hmem, helig⟩
      rw [List.find?_eq_none] at h
      exact absurd helig (by simpa using h r hmem)
  | some r =>
      rw [acquireRun_some db i lms now r h]
      simp only [Option.isSome_some, true_iff]
      exact ⟨r, List.mem_of_find?_eq_some h, List.find?_some h⟩

/-- Terminal statuses never satisfy the eligibility predicate. -/
theorem eligible_false_of_terminal (now : Int) (r : RunRow)
    (h : r.status = "done" ∨ r.status = "failed") : eligible now r = false := by
  rcases h with h | h <;> simp [eligible, h]

/-- `signalRowUpdate` leaves a terminal status unchanged. -/
theorem signalRowUpdate_status_terminal (input : Option Val) (now : Int) (r : RunRow)
    (h : r.status = "done" ∨ r.status = "failed") :
    (signalRowUpdate input now r).status = r.status := by
  rcases h with h | h <;> simp [signalRowUpdate, h]

/-- Signals (in any number, at any keys) preserve a terminal row's status,
and preserve the row's identity. -/
theorem applySignals_terminal (sigs : List (String × Option Val)) (now : Int) :
    ∀ (db : RunsDb) (rid : String) (r : RunRow),
      getRunD db rid = some r → (r.status = "done" ∨ r.status = "failed") →
      ∃ r2, getRunD (applySignals db sigs now) rid = some r2 ∧ r2.status = r.status := by
  induction sigs with
  | nil => exact fun db rid r h _ => ⟨r, h, rfl⟩
  | cons sg rest ih =>
      intro db rid r h hterm
      have step : getRunD (signalRun db sg.1 sg.2 now) rid
          = some (if r.run_id == sg.1 then signalRowUpdate sg.2 now r else r) := by
        rw [signalRun, getRunD_updateRow db sg.1 _ (signalRowUpdate_run_id sg.2 now) rid, h]
        rfl
      set r3 : RunRow := if r.run_id == sg.1 then signalRowUpdate sg.2 now r else r with hr3
      have hst : r3.status = r.status := by
        rw [hr3]
        by_cases hc : (r.run_id == sg.1) = true
        · rw [if_pos hc]
          exact signalRowUpdate_status_terminal sg.2 now r hterm
        · rw [if_neg hc]
      have hterm3 : r3.status = "done" ∨ r3.status = "failed" := by rw [hst]; exact hterm
      obtain ⟨r2, h2, hs2⟩ := ih (signalRun db sg.1 sg.2 now) rid r3 step hterm3
      refine ⟨r2, ?_, by rw [hs2, hst]⟩
      simpa [applySignals] using h2

/-- `applyOutcome` only updates the acquired run's rows. -/
theorem getRunD_applyOutcome_ne (db : RunsDb) (run : RunRow) (o : TickOutcome) (now : Int)
    (rid : String) (hne : rid ≠ run.run_id) :
    getRunD (applyOutcome db run o now) rid = getRunD db rid := by
  cases o with
  | ok =>
      simp only [applyOutcome, applyOutcomeInstr, releaseRun]
      exact getRunD_updateRow_ne db run.run_id _ (releaseSet_run_id now _) rid hne
  | done output =>
      simp only [applyOutcome, applyOutcomeInstr, releaseRun]
      exact getRunD_updateRow_ne db run.run_id _ (releaseSet_run_id now _) rid hne
  | cont input =>
      simp only [applyOutcome, applyOutcomeInstr, releaseRun]
      exact getRunD_updateRow_ne db run.run_id _ (releaseSet_run_id now _) rid hne
  | wait wakeAt =>
      simp only [applyOutcome, applyOutcomeInstr, releaseRun]
      exact getRunD_updateRow_ne db run.run_id _ (releaseSet_run_id now _) rid hne
  | retry error =>
      simp only [applyOutcome, applyOutcomeInstr, releaseRun]
      by_cases hm : run.max_attempts ≤ run.attempt + 1
      · rw [if_pos hm]
        exact getRunD_updateRow_ne db run.run_id _ (releaseSet_run_id now _) rid hne
      · rw [if_neg hm]
        exact getRunD_updateRow_ne db run.run_id _ (releaseSet_run_id now _) rid hne
  | failed error =>
      simp only [applyOutcome, applyOutcomeInstr, releaseRun]
      exact getRunD_updateRow_ne db run.run_id _ (releaseSet_run_id now _) rid hne

/-- `advance()` when no run is eligible. -/
theorem advanceStep_none (db : RunsDb) (i : String) (lms now : Int)
    (handler? : Option (Option Val → Nat → TickOutcome)) (mids : List (String × Option Val))
    (h : db.find? (eligible now) = none) :
    advanceStep db i lms now handler? mids = ({ advanced := 0, results := [] }, db) := by
  simp [advanceStep, acquireRun_none db i lms now h]

/-! ## C1: terminal statuses are immutable -/

/-- C1.  Terminal statuses are immutable: for a run whose status is `done` or
`failed`, a `signal` leaves the status field unchanged (`signalRun`'s CASE
flips only `idle`/`waiting` to `pending`), the run never satisfies
`acquireRun`'s eligibility predicate, and a whole `advance()` call — acquire,
consume, any signals fired during the tick, and the outcome application that
releases the acquired run — leaves the terminal run's status exactly as it
was. -/
theorem terminal_status_immutable (db : RunsDb) (rid : String) (r : RunRow)
    (hr : getRunD db rid = some r)
    (hterm : r.status = "done" ∨ r.status = "failed")
    (hids : (db.map RunRow.run_id).Nodup) :
    (∀ input now, ∃ r2, getRunD (signalRun db rid input now) rid = some r2 ∧
        r2.status = r.status)
    ∧ (∀ now, eligible now r = false)
    ∧ (∀ i lms now handler? mids,
        ∃ r2, getRunD (advanceStep db i lms now handler? mids).2 rid = some r2 ∧
          r2.status = r.status) := by
  have hkey : r.run_id = rid := getRunD_key db rid r hr
  refine ⟨?_, ?_, ?_⟩
  · intro input now
    refine ⟨signalRowUpdate input now r, ?_, signalRowUpdate_status_terminal input now r hterm⟩
    exact getRunD_updateRow_self db rid _ (signalRowUpdate_run_id input now) r hr
  · intro now
    exact eligible_false_of_terminal now r hterm
  · intro i lms now handler? mids
    cases hfind : db.find? (eligible now) with
    | none =>
        rw [advanceStep_none db i lms now handler? mids hfind]
        exact ⟨r, hr, rfl⟩
    | some r0 =>
        have hr0mem : r0 ∈ db := List.mem_of_find?_eq_some hfind
        have hr0elig : eligible now r0 = true := List.find?_some hfind
        have hrmem : r ∈ db := getRunD_mem db rid r hr
        have hner : r0 ≠ r := by
          intro he
          rw [he, eligible_false_of_terminal now r hterm] at hr0elig
          exact Bool.false_ne_true hr0elig
        have hneid : rid ≠ r0.run_id := by
          intro he
          exact hner (List.inj_on_of_nodup_map hids hr0mem hrmem (by rw [← he, hkey]))
        -- unfold one advance step with `r0` acquired
        rw [advanceStep, acquireRun_some db i lms now r0 hfind]
        simp only []
        have hlockid : (lockSet i (now + lms) now r0).run_id = r0.run_id := rfl
        -- the table after the lock UPDATE still holds `r` at `rid`
        have hdb1 : getRunD (updateWhere db
            (fun x => eligible now x && x.run_id == r0.run_id) (lockSet i (now + lms) now)) rid
            = some r := by
          rw [getRunD_updateWhere_ne db _ _ (lockSet_run_id i (now + lms) now) rid]
          · exact hr
          · intro x hx hxe
            have hx2 := hx
            simp only [Bool.and_eq_true, beq_iff_eq] at hx2
            exact hneid (by rw [← hxe, hx2.2])
        set db1 := updateWhere db
          (fun x => eligible now x && x.run_id == r0.run_id) (lockSet i (now + lms) now) with hdb1def
        -- consuming the acquired run's pending input does not touch `rid`
        have hdb2 : getRunD (if (lockSet i (now + lms) now r0).pending_input.isSome then
            consumePendingInput db1 (lockSet i (now + lms) now r0).run_id else db1) rid
            = some r := by
          by_cases hc : (lockSet i (now + lms) now r0).pending_input.isSome = true
          · rw [if_pos hc, hlockid, consumePendingInput,
              getRunD_updateRow_ne db1 r0.run_id
                (fun r => { r with pending_input := none }) (fun x => rfl) rid hneid]
            exact hdb1
          · rw [if_neg hc]
            exact hdb1
        set db2 := if (lockSet i (now + lms) now r0).pending_input.isSome then
          consumePendingInput db1 (lockSet i (now + lms) now r0).run_id else db1 with hdb2def
        cases handler? with
        | none =>
            refine ⟨r, ?_, rfl⟩
            simp only [hlockid]
            rw [releaseRun, getRunD_updateRow_ne db2 r0.run_id _
              (releaseSet_run_id now _) rid hneid]
            exact hdb2
        | some h =>
            obtain ⟨r3, h3, hs3⟩ := applySignals_terminal mids now db2 rid r hdb2 hterm
            refine ⟨r3, ?_, hs3⟩
            simp only []
            rw [getRunD_applyOutcome_ne _ _ _ now rid (by rw [hlockid]; exact hneid)]
            exact h3

/-! ## C8: acquire eligibility and the advance result shape -/

/-- C8.  `acquireRun(instanceId, lockMs)` locks and returns a run exactly
when some run satisfies
`(status = 'pending' OR (status = 'waiting' AND wakeAt <= now)) AND
(lockedBy IS NULL OR lockExpiresAt <= now)`; the selected row comes back with
`lockedBy = instanceId`, `lockExpiresAt = now + lockMs`, `updatedTs = now`; a
waiting run with `wakeAt` exactly `now` is eligible; when no run is eligible
`advance()` returns `{advanced: 0, results: []}`; and at most one run is
advanced per call. -/
theorem acquire_eligibility (db : RunsDb) (i : String) (lms now : Int) :
    ((acquireRun db i lms now).1.isSome ↔ ∃ r ∈ db, eligible now r = true)
    ∧ (∀ a db2, acquireRun db i lms now = (some a, db2) →
        ∃ r ∈ db, eligible now r = true ∧ a = lockSet i (now + lms) now r ∧
          a.locked_by = some i ∧ a.lock_expires_at = some (now + lms) ∧ a.updated_ts = now)
    ∧ (∀ r : RunRow, r.status = "waiting" → r.wake_at = some now → r.locked_by = none →
        eligible now r = true)
    ∧ ((∀ r ∈ db, eligible now r = false) →
        ∀ handler? mids, advanceStep db i lms now handler? mids
          = ({ advanced := 0, results := [] }, db))
    ∧ (∀ handler? mids, (advanceStep db i lms now handler? mids).1.advanced ≤ 1) := by
  refine ⟨acquireRun_isSome_iff db i lms now, ?_, ?_, ?_, ?_⟩
  · intro a db2 h
    cases hfind : db.find? (eligible now) with
    | none =>
        rw [acquireRun_none db i lms now hfind] at h
        simp at h
    | some r =>
        rw [acquireRun_some db i lms now r hfind] at h
        have ha : a = lockSet i (now + lms) now r := by
          have := congrArg Prod.fst h
          simpa using this.symm
        exact ⟨r, List.mem_of_find?_eq_some hfind, List.find?_some hfind, ha,
          by rw [ha]; rfl, by rw [ha]; rfl, by rw [ha]; rfl⟩
  · intro r h1 h2 h3
    simp [eligible, h1, h2, h3, sqlLeNow]
  · intro hall handler? mids
    apply advanceStep_none
    rw [List.find?_eq_none]
    intro x hx
    simp [hall x hx]
  · intro handler? mids
    cases hfind : db.find? (eligible now) with
    | none =>
        rw [advanceStep_none db i lms now handler? mids hfind]
        simp
    | some r0 =>
        rw [advanceStep, acquireRun_some db i lms now r0 hfind]
        cases handler? <;> simp

/-! ## C3: the retry outcome mapping -/

/-- C3.  For an acquired run snapshot and handler outcome
`{status: "retry", error}`: if `attempt+1 >= maxAttempts` the release is
terminal (`failed`, `attempt+1`, `lastError = error`, `wakeAt = null`,
`pendingInput = null`); otherwise, with no signal on the fresh row, the
release is `waiting` with `attempt+1`,
`wakeAt = now + min(1000 * 2^(attempt+1), 60000)`, `lastError = error` and
`pendingInput` restored from the acquire snapshot; with a newer signal on the
fresh row, the release is `pending` with counters reset and the newer
signal's input kept. -/
theorem retry_outcome_mapping (db : RunsDb) (run fresh : RunRow) (err : String) (now : Int)
    (hfresh : getRunD db run.run_id = some fresh) :
    (run.max_attempts ≤ run.attempt + 1 →
      ∃ row, getRunD (applyOutcome db run (.retry err) now) run.run_id = some row ∧
        row.status = "failed" ∧ row.attempt = run.attempt + 1 ∧ row.last_error = some err ∧
        row.wake_at = none ∧ row.pending_input = none)
    ∧ (run.attempt + 1 < run.max_attempts → fresh.pending_input = none →
      ∃ row, getRunD (applyOutcome db run (.retry err) now) run.run_id = some row ∧
        row.status = "waiting" ∧ row.attempt = run.attempt + 1 ∧
        row.wake_at = some (now + min (1000 * 2 ^ (run.attempt + 1)) 60000) ∧
        row.last_error = some err ∧ row.pending_input = run.pending_input)
    ∧ (∀ v, run.attempt + 1 < run.max_attempts → fresh.pending_input = some v →
      ∃ row, getRunD (applyOutcome db run (.retry err) now) run.run_id = some row ∧
        row.status = "pending" ∧ row.attempt = 0 ∧ row.wake_at = none ∧
        row.last_error = none ∧ row.pending_input = some v) := by
  refine ⟨?_, ?_, ?_⟩
  · intro hm
    have hstep : applyOutcome db run (.retry err) now
        = releaseRun db run.run_id
            { status := "failed", attempt := some (run.attempt + 1),
              last_error := some (some err), wake_at := some none,
              pending_input := some none } now := by
      simp [applyOutcome, applyOutcomeInstr, hm]
    have hrow := getRunD_updateRow_self db run.run_id
      (releaseSet now
        { status := "failed", attempt := some (run.attempt + 1),
          last_error := some (some err), wake_at := some none, pending_input := some none })
      (releaseSet_run_id now _) fresh hfresh
    rw [hstep, releaseRun]
    exact ⟨_, hrow, rfl, rfl, rfl, rfl, rfl⟩
  · intro hm hp
    have hm2 : ¬ (run.max_attempts ≤ run.attempt + 1) := by omega
    have hnew : ((getRunD db run.run_id).bind RunRow.pending_input).isSome = false := by
      rw [hfresh]
      simp [hp]
    have hstep : applyOutcome db run (.retry err) now
        = releaseRun db run.run_id
            { status := "waiting", attempt := some (run.attempt + 1),
              wake_at := some (some (now + backoffMs (run.attempt + 1))),
              last_error := some (some err), pending_input := some run.pending_input } now := by
      simp [applyOutcome, applyOutcomeInstr, hm2, hnew]
    have hrow := getRunD_updateRow_self db run.run_id
      (releaseSet now
        { status := "waiting", attempt := some (run.attempt + 1),
          wake_at := some (some (now + backoffMs (run.attempt + 1))),
          last_error := some (some err), pending_input := some run.pending_input })
      (releaseSet_run_id now _) fresh hfresh
    rw [hstep, releaseRun]
    exact ⟨_, hrow, rfl, rfl, rfl, rfl, rfl⟩
  · intro v hm hp
    have hm2 : ¬ (run.max_attempts ≤ run.attempt + 1) := by omega
    have hnew : ((getRunD db run.run_id).bind RunRow.pending_input).isSome = true := by
      rw [hfresh]
      simp [hp]
    have hstep : applyOutcome db run (.retry err) now
        = releaseRun db run.run_id
            { status := "pending", attempt := some 0, wake_at := some none,
              last_error := some none, pending_input := none } now := by
      simp [applyOutcome, applyOutcomeInstr, hm2, hnew]
    have hrow := getRunD_updateRow_self db run.run_id
      (releaseSet now
        { status := "pending", attempt := some 0, wake_at := some none,
          last_error := some none, pending_input := none })
      (releaseSet_run_id now _) fresh hfresh
    rw [hstep, releaseRun]
    refine ⟨_, hrow, rfl, rfl, rfl, rfl, ?_⟩
    simp [releaseSet, hp]

/-! ## C4: the ok outcome mapping -/

/-- C4.  For an acquired run whose handler returns `{status: "ok"}`: with no
signal on the fresh row the run is released to `idle` with counters, error,
wake time and pending input cleared and the lock released; with a signal on
the fresh row the run is released to `pending` with `attempt = 0` and the
signal's `pendingInput` intact. -/
theorem ok_outcome_mapping (db : RunsDb) (run fresh : RunRow) (now : Int)
    (hfresh : getRunD db run.run_id = some fresh) :
    (fresh.pending_input = none →
      ∃ row, getRunD (applyOutcome db run .ok now) run.run_id = some row ∧
        row.status = "idle" ∧ row.attempt = 0 ∧ row.wake_at = none ∧
        row.last_error = none ∧ row.pending_input = none ∧
        row.locked_by = none ∧ row.lock_expires_at = none)
    ∧ (∀ v, fresh.pending_input = some v →
      ∃ row, getRunD (applyOutcome db run .ok now) run.run_id = some row ∧
        row.status = "pending" ∧ row.attempt = 0 ∧ row.wake_at = none ∧
        row.last_error = none ∧ row.pending_input = some v ∧
        row.locked_by = none ∧ row.lock_expires_at = none) := by
  constructor
  · intro hp
    have hnew : ((getRunD db run.run_id).bind RunRow.pending_input).isSome = false := by
      rw [hfresh]
      simp [hp]
    have hstep : applyOutcome db run .ok now
        = releaseRun db run.run_id
            { status := "idle", attempt := some 0, last_error := some none,
              wake_at := some none, pending_input := some none } now := by
      simp [applyOutcome, applyOutcomeInstr, hnew]
    have hrow := getRunD_updateRow_self db run.run_id
      (releaseSet now
        { status := "idle", attempt := some 0, last_error := some none,
          wake_at := some none, pending_input := some none })
      (releaseSet_run_id now _) fresh hfresh
    rw [hstep, releaseRun]
    exact ⟨_, hrow, rfl, rfl, rfl, rfl, rfl, rfl, rfl⟩
  · intro v hp
    have hnew : ((getRunD db run.run_id).bind RunRow.pending_input).isSome = true := by
      rw [hfresh]
      simp [hp]
    have hstep : applyOutcome db run .ok now
        = releaseRun db run.run_id
            { status := "pending", attempt := some 0, last_error := some none,
              wake_at := some none, pending_input := none } now := by
      simp [applyOutcome, applyOutcomeInstr, hnew]
    have hrow := getRunD_updateRow_self db run.run_id
      (releaseSet now
        { status := "pending", attempt := some 0, last_error := some none,
          wake_at := some none, pending_input := none })
      (releaseSet_run_id now _) fresh hfresh
    rw [hstep, releaseRun]
    refine ⟨_, hrow, rfl, rfl, rfl, rfl, ?_, rfl, rfl⟩
    simp [releaseSet, hp]

/-! ## C2: the atomic release and the scheduler's releases -/

/-- `releaseRunAtomicSet` does not touch `run_id` in either CASE branch. -/
theorem releaseRunAtomicSet_run_id (now : Int) (ns : AtomicNoSignal) (r : RunRow) :
    (releaseRunAtomicSet now ns r).run_id = r.run_id := by
  by_cases hc : r.pending_input.isSome = true
  · rw [releaseRunAtomicSet, if_pos hc]
  · rw [releaseRunAtomicSet, if_neg hc]

/-- C2 (amended).  `releaseRunAtomic(runId, noSignal)` has the atomic
signal-detection semantics in one UPDATE: if the row's `pendingInput` is
non-null the release sets `status = 'pending'`, `attempt = 0`,
`wakeAt = null`, `lastError = null`, clears the lock and leaves
`pendingInput` unchanged; otherwise it applies the caller's `noSignal` patch
and clears the lock.  The scheduler's outcome application, however, never
issues this statement: every release it performs is a plain
`releaseRun(run.runId, patch)` preceded (in the signal-sensitive branches) by
a separate `getRun` read. -/
theorem releaseRunAtomic_semantics_and_scheduler_trace (db : RunsDb) (rid : String)
    (ns : AtomicNoSignal) (now : Int) (fresh : RunRow)
    (hfresh : getRunD db rid = some fresh) :
    (getRunD (releaseRunAtomic db rid ns now) rid = some (releaseRunAtomicSet now ns fresh)
      ∧ (releaseRunAtomicSet now ns fresh).locked_by = none
      ∧ (releaseRunAtomicSet now ns fresh).lock_expires_at = none
      ∧ (fresh.pending_input.isSome = true →
          (releaseRunAtomicSet now ns fresh).status = "pending"
            ∧ (releaseRunAtomicSet now ns fresh).attempt = 0
            ∧ (releaseRunAtomicSet now ns fresh).wake_at = none
            ∧ (releaseRunAtomicSet now ns fresh).last_error = none
            ∧ (releaseRunAtomicSet now ns fresh).pending_input = fresh.pending_input)
      ∧ (fresh.pending_input = none →
          (releaseRunAtomicSet now ns fresh).status = ns.status
            ∧ (releaseRunAtomicSet now ns fresh).attempt = ns.attempt
            ∧ (releaseRunAtomicSet now ns fresh).wake_at = ns.wake_at
            ∧ (releaseRunAtomicSet now ns fresh).last_error = ns.last_error
            ∧ (releaseRunAtomicSet now ns fresh).pending_input = ns.pending_input_json))
    ∧ (∀ (db2 : RunsDb) (run : RunRow) (o : TickOutcome) (now2 : Int) (op : DbOp),
        op ∈ applyOutcomeOps db2 run o now2 →
        op.isAtomicRelease = false
          ∧ (op.isRelease = true → ∃ patch, op = .releaseRunOp run.run_id patch)) := by
  constructor
  · refine ⟨?_, ?_, ?_, ?_, ?_⟩
    · exact getRunD_updateRow_self db rid _ (releaseRunAtomicSet_run_id now ns) fresh hfresh
    · by_cases hc : fresh.pending_input.isSome = true
      · rw [releaseRunAtomicSet, if_pos hc]
      · rw [releaseRunAtomicSet, if_neg hc]
    · by_cases hc : fresh.pending_input.isSome = true
      · rw [releaseRunAtomicSet, if_pos hc]
      · rw [releaseRunAtomicSet, if_neg hc]
    · intro hc
      rw [releaseRunAtomicSet, if_pos hc]
      exact ⟨rfl, rfl, rfl, rfl, rfl⟩
    · intro hc
      have hc2 : fresh.pending_input.isSome = false := by simp [hc]
      rw [releaseRunAtomicSet, if_neg (by simp [hc2])]
      exact ⟨rfl, rfl, rfl, rfl, rfl⟩
  · intro db2 run o now2 op hop
    cases o with
    | ok =>
        simp only [applyOutcomeOps, applyOutcomeInstr, List.mem_cons,
          List.mem_singleton, List.not_mem_nil] at hop
        rcases hop with h | h | h
        · subst h; exact ⟨rfl, by intro hrel; cases hrel⟩
        · subst h; exact ⟨rfl, fun _ => ⟨_, rfl⟩⟩
        · exact h.elim
    | done output =>
        simp only [applyOutcomeOps, applyOutcomeInstr, List.mem_singleton] at hop
        subst hop; exact ⟨rfl, fun _ => ⟨_, rfl⟩⟩
    | cont input =>
        simp only [applyOutcomeOps, applyOutcomeInstr, List.mem_cons,
          List.mem_singleton, List.not_mem_nil] at hop
        rcases hop with h | h | h
        · subst h; exact ⟨rfl, by intro hrel; cases hrel⟩
        · subst h; exact ⟨rfl, fun _ => ⟨_, rfl⟩⟩
        · exact h.elim
    | wait wakeAt =>
        simp only [applyOutcomeOps, applyOutcomeInstr, List.mem_cons,
          List.mem_singleton, List.not_mem_nil] at hop
        rcases hop with h | h | h
        · subst h; exact ⟨rfl, by intro hrel; cases hrel⟩
        · subst h; exact ⟨rfl, fun _ => ⟨_, rfl⟩⟩
        · exact h.elim
    | retry error =>
        by_cases hm : run.max_attempts ≤ run.attempt + 1
        · simp only [applyOutcomeOps, applyOutcomeInstr, if_pos hm,
            List.mem_singleton] at hop
          subst hop; exact ⟨rfl, fun _ => ⟨_, rfl⟩⟩
        · simp only [applyOutcomeOps, applyOutcomeInstr, if_neg hm, List.mem_cons,
            List.mem_singleton, List.not_mem_nil] at hop
          rcases hop with h | h | h
          · subst h; exact ⟨rfl, by intro hrel; cases hrel⟩
          · subst h; exact ⟨rfl, fun _ => ⟨_, rfl⟩⟩
          · exact h.elim
    | failed error =>
        simp only [applyOutcomeOps, applyOutcomeInstr, List.mem_singleton] at hop
        subst hop; exact ⟨rfl, fun _ => ⟨_, rfl⟩⟩

/-- C2 (counterexample).  "Every release performed by the scheduler's outcome
application has the one-statement signal-detection semantics" is false on the
code: applying an `ok` outcome to a concrete run issues a `getRun` followed
by a plain `releaseRun` — a release op that is not `releaseRunAtomic`. -/
theorem scheduler_release_not_atomic_counterexample :
    ¬ (∀ op ∈ applyOutcomeOps [runIdle] runIdle .ok 5, op.isRelease = true →
        op.isAtomicRelease = true) := by
  decide

/-! ## C5: signals on terminal runs -/

/-- C5 (counterexample).  Signalling a `done` run leaves the status terminal
but does NOT leave `pendingInput` as it was: `signalRun` writes
`pending_input = input` unconditionally, so a signal with input `"ping"`
changes the field from NULL to `"ping"`. -/
theorem signal_terminal_overwrites_input_counterexample :
    getRunD (signalRun [runDone] "rT" (some "ping") 9) "rT"
        = some (signalRowUpdate (some "ping") 9 runDone)
      ∧ (signalRowUpdate (some "ping") 9 runDone).status = "done"
      ∧ runDone.pending_input = none
      ∧ (signalRowUpdate (some "ping") 9 runDone).pending_input ≠ runDone.pending_input := by
  decide

/-- C5 (amended).  For a run whose status is `done` or `failed`,
`signal(runId, input)` leaves the status field unchanged, but overwrites
`pendingInput` with the signalled input (`signalRun`'s SET writes
`pending_input` unconditionally; only the status is guarded by the CASE). -/
theorem signal_terminal_keeps_status_overwrites_input (db : RunsDb) (rid : String)
    (input : Option Val) (now : Int) (r : RunRow)
    (hr : getRunD db rid = some r)
    (hterm : r.status = "done" ∨ r.status = "failed") :
    ∃ r2, getRunD (signalRun db rid input now) rid = some r2
      ∧ r2.status = r.status ∧ r2.pending_input = input := by
  refine ⟨signalRowUpdate input now r, ?_,
    signalRowUpdate_status_terminal input now r hterm, rfl⟩
  exact getRunD_updateRow_self db rid _ (signalRowUpdate_run_id input now) r hr

/-! ## C10: signalling with an omitted input -/

/-- C10.  `signal(runId)` with the input omitted stores `pendingInput = NULL`
and flips an `idle`/`waiting` run to `pending`.  On the next `advance()` that
acquires it, the snapshot's `pendingInput` is `none`, so the
`consumePendingInput` call is skipped (its guard `pending_input != null`
fails) and the advance handler is invoked with input `null`: the tick's
outcome is `h none attempt` applied to the lock-updated table. -/
theorem omitted_signal_wakes_with_null_input (db : RunsDb) (rid : String) (r : RunRow)
    (now : Int) (hr : getRunD db rid = some r)
    (hst : r.status = "idle" ∨ r.status = "waiting")
    (i : String) (lms now2 : Int) (h : Option Val → Nat → TickOutcome)
    (mids : List (String × Option Val))
    (hacq : (signalRun db rid none now).find? (eligible now2)
      = some (signalRowUpdate none now r)) :
    (signalRowUpdate none now r).status = "pending"
    ∧ (signalRowUpdate none now r).pending_input = none
    ∧ getRunD (signalRun db rid none now) rid = some (signalRowUpdate none now r)
    ∧ (lockSet i (now2 + lms) now2 (signalRowUpdate none now r)).pending_input = none
    ∧ (lockSet i (now2 + lms) now2 (signalRowUpdate none now r)).attempt = r.attempt
    ∧ advanceStep (signalRun db rid none now) i lms now2 (some h) mids
      = ({ advanced := 1,
           results := [(r.run_id, outcomeStatus (h none r.attempt))] },
         applyOutcome
           (applySignals
             (updateWhere (signalRun db rid none now)
               (fun x => eligible now2 x && x.run_id == (signalRowUpdate none now r).run_id)
               (lockSet i (now2 + lms) now2))
             mids now2)
           (lockSet i (now2 + lms) now2 (signalRowUpdate none now r))
           (h none r.attempt) now2) := by
  have hstatus : (signalRowUpdate none now r).status = "pending" := by
    rcases hst with h1 | h1 <;> simp [signalRowUpdate, h1]
  refine ⟨hstatus, rfl, ?_, rfl, rfl, ?_⟩
  · exact getRunD_updateRow_self db rid _ (signalRowUpdate_run_id none now) r hr
  · rw [advanceStep, acquireRun_some _ i lms now2 _ hacq]
    rfl

/-! ## C6: the per-tick, per-adapter storage budget -/

/-- C6.  Within one tick, a given adapter's tool invoker allows exactly one
`read_scoped` and one `write_scoped`: a second `read_scoped` returns
`{ok: false}` with code `STORAGE_READ_ALREADY_CALLED`, a `write_scoped`
before any `read_scoped` returns `STORAGE_WRITE_BEFORE_READ`, a second
`write_scoped` returns `STORAGE_WRITE_ALREADY_CALLED` — each as a returned
`{ok: false, error: {code, message, details}}` value with the budget cells
untouched, never as a thrown exception — and a permitted call consumes its
budget flag. -/
theorem storage_budget_enforced (reg : ClogReg) (now : Int) (fuel : Nat) (ctx : TickCtx)
    (db : StorageDb) (s : BudgetState) :
    (∀ plans, s.readCalled = true →
      invokeTool reg now (fuel + 1) ctx db s (.readScoped plans)
        = (.errR { code := ERR_STORAGE_READ_ALREADY_CALLED,
                   message := "storage.read_scoped already called for this clog in this tick" },
           s, db))
    ∧ (∀ ops, s.readCalled = false →
        invokeTool reg now (fuel + 1) ctx db s (.writeScoped ops)
          = (.errR { code := ERR_STORAGE_WRITE_BEFORE_READ,
                     message := "storage.write_scoped called before storage.read_scoped" },
             s, db))
    ∧ (∀ ops, s.readCalled = true → s.writeCalled = true →
        invokeTool reg now (fuel + 1) ctx db s (.writeScoped ops)
          = (.errR { code := ERR_STORAGE_WRITE_ALREADY_CALLED,
                     message := "storage.write_scoped already called for this clog in this tick" },
             s, db))
    ∧ (∀ plans, s.readCalled = false →
        ((invokeTool reg now (fuel + 1) ctx db s (.readScoped plans)).2.1).readCalled = true)
    ∧ (∀ ops, s.readCalled = true → s.writeCalled = false →
        ((invokeTool reg now (fuel + 1) ctx db s (.writeScoped ops)).2.1).writeCalled = true) := by
  refine ⟨?_, ?_, ?_, ?_, ?_⟩
  · intro plans hread
    simp [invokeTool, hread]
  · intro ops hread
    simp [invokeTool, hread]
  · intro ops hread hwrite
    simp [invokeTool, hread, hwrite]
  · intro plans hread
    cases hout : (storageReadScoped db ctx plans ({ s with readCalled := true }).ledger).1 <;>
      simp [invokeTool, hread, hout]
  · intro ops hread hwrite
    cases hout : storageWriteScoped db ctx ops ({ s with writeCalled := true }).ledger now with
    | error e => simp [invokeTool, hread, hwrite, hout]
    | ok p =>
        cases p with
        | mk db2 applied => simp [invokeTool, hread, hwrite, hout]

/-! ## C7: fail-fast, atomic write_scoped with RBW enforcement -/

/-- A validated op passed its RBW check: its targeted identity is in the read
ledger. -/
theorem validateWriteOp_none_authorizes (ctx : TickCtx) (ledger : ReadLedger)
    (op : StorageWriteOp) (h : validateWriteOp ctx ledger op = none) :
    ledgerAuthorizes ledger op = true := by
  cases op <;> simp only [validateWriteOp] at h <;> (repeat' split at h) <;>
    simp_all [ledgerAuthorizes]

/-- If the whole batch validates, each op validates. -/
theorem validateWriteOps_none (ctx : TickCtx) (ledger : ReadLedger) :
    ∀ ops : List StorageWriteOp, validateWriteOps ctx ledger ops = none →
      ∀ op ∈ ops, validateWriteOp ctx ledger op = none := by
  intro ops
  induction ops with
  | nil => intro _ op hop; exact absurd hop (List.not_mem_nil op)
  | cons o os ih =>
      intro h op hop
      rw [validateWriteOps] at h
      cases ho : validateWriteOp ctx ledger o with
      | some e => rw [ho] at h; exact absurd h (by simp)
      | none =>
          rw [ho] at h
          rcases List.mem_cons.mp hop with h1 | h1
          · rw [h1]; exact ho
          · exact ih h op h1

/-- C7.  `storageWriteScoped` validates every op of the batch before
executing any: a validation failure returns the first violation as an error
with the storage unchanged (no op applied), and a success applies every op
inside the one transaction and reports `applied = ops.length`; consequently
every applied op passed validation against the tick's read ledger, so its
targeted `(scope, identifier)` was present in the ledger at the moment of
validation. -/
theorem write_scoped_fail_fast_atomic (db : StorageDb) (ctx : TickCtx)
    (ops : List StorageWriteOp) (ledger : ReadLedger) (now : Int) :
    (∀ e, validateWriteOps ctx ledger ops = some e →
      storageWriteScoped db ctx ops ledger now = .error e
        ∧ storageAfterWrite db ctx ops ledger now = db)
    ∧ (∀ db2 n, storageWriteScoped db ctx ops ledger now = .ok (db2, n) →
        n = ops.length ∧ db2 = ops.foldl (applyWriteOp ctx now) db
          ∧ ∀ op ∈ ops, validateWriteOp ctx ledger op = none
              ∧ ledgerAuthorizes ledger op = true) := by
  constructor
  · intro e he
    have h1 : storageWriteScoped db ctx ops ledger now = .error e := by
      rw [storageWriteScoped, he]
    exact ⟨h1, by rw [storageAfterWrite, h1]⟩
  · intro db2 n h
    cases hv : validateWriteOps ctx ledger ops with
    | some e =>
        rw [storageWriteScoped, hv] at h
        exact absurd h (by simp)
    | none =>
        rw [storageWriteScoped, hv] at h
        have h2 : db2 = ops.foldl (applyWriteOp ctx now) db ∧ n = ops.length := by
          have := h
          simp only [Except.ok.injEq, Prod.mk.injEq] at this
          exact ⟨this.1.symm, this.2.symm⟩
        refine ⟨h2.2, h2.1, fun op hop => ?_⟩
        have hval := validateWriteOps_none ctx ledger ops hv op hop
        exact ⟨hval, validateWriteOp_none_authorizes ctx ledger op hval⟩

/-! ## C9: peer-call budget isolation -/

/-- A full `clog.<id>.<method>` match also matches the tool-runtime's prefix
regex, with the same clog id. -/
theorem parseClogFull_prefix (address cid m : String)
    (h : parseClogFull address = some (cid, m)) :
    parseClogPrefix address = some cid := by
  rw [parseClogFull] at h
  rw [parseClogPrefix]
  cases hs : splitOnDot address with
  | nil => rw [hs] at h; exact absurd h (by simp)
  | cons a tl =>
      cases tl with
      | nil => rw [hs] at h; exact absurd h (by simp)
      | cons b tl2 =>
          cases tl2 with
          | nil => rw [hs] at h; exact absurd h (by simp)
          | cons c tl3 =>
              cases tl3 with
              | nil =>
                  rw [hs] at h
                  simp only [] at h ⊢
                  cases hcond : (a == "clog" && !b.isEmpty && !c.isEmpty) with
                  | false => rw [hcond] at h; exact absurd h (by simp)
                  | true =>
                      rw [hcond] at h
                      simp only [if_true, Option.some.injEq, Prod.mk.injEq] at h
                      simp only [Bool.and_eq_true] at hcond
                      have hcid : (!cid.isEmpty) = true := by
                        rw [← h.1]
                        exact hcond.1.2
                      rw [hcond.1.1, h.1]
                      simp [hcid]
              | cons d tl4 =>
                  rw [hs] at h
                  exact absurd h (by simp)

/-- C9.  `ocean.clog.call` runs the callee with a factory-fresh tool invoker:
the callee's budget starts with both flags `false` and an empty ledger, its
tick context shares the caller's `runId` / `tickId` / `sessionId` with the
callee's `clogId` substituted, and the caller's own budget state comes back
exactly as it went in — the callee's `read_scoped` / `write_scoped` touch
only the fresh budget, which is discarded after the call.  (Only the
database threads through, so an exhausted caller can still call a peer that
does its own single read and write.) -/
theorem peer_call_budget_isolated (reg : ClogReg) (now : Int) (fuel : Nat) (ctx : TickCtx)
    (db : StorageDb) (s : BudgetState) (address : String) (payload : Option Val)
    (cid method : String) (h : HandlerProg)
    (hparse : parseClogFull address = some (cid, method))
    (hhandler : reg.getHandler cid method = some h) :
    invokeTool reg now (fuel + 1) ctx db s (.clogCall address payload)
      = (.okR (.clogOut h.result), s,
         (runCalls reg now fuel
            { clogId := cid, sessionId := ctx.sessionId, runId := ctx.runId,
              tickId := ctx.tickId }
            db freshBudget h.calls).2.2)
    ∧ freshBudget.readCalled = false
    ∧ freshBudget.writeCalled = false
    ∧ freshBudget.ledger = emptyLedger := by
  have hpre := parseClogFull_prefix address cid method hparse
  refine ⟨?_, rfl, rfl, rfl⟩
  rw [invokeTool]
  simp only [hpre, hparse, hhandler]
  rfl

/-! ## Witnesses: each hypothesis-bearing claim theorem applied at a concrete input -/

/-- C1 witness: on the table `[runDone, runPending]`, the `done` run absorbs
a signal, is ineligible, and survives a full advance with its status intact. -/
theorem terminal_status_immutable_witness :
    (∃ r2, getRunD (signalRun [runDone, runPending] "rT" (some "poke") 9) "rT" = some r2
        ∧ r2.status = runDone.status)
    ∧ eligible 9 runDone = false
    ∧ (∃ r2, getRunD (advanceStep [runDone, runPending] "i" 30000 9
          (some (fun _ _ => .ok)) []).2 "rT" = some r2 ∧ r2.status = runDone.status) := by
  have h := terminal_status_immutable [runDone, runPending] "rT" runDone (by decide)
    (Or.inl rfl) (by decide)
  exact ⟨h.1 (some "poke") 9, h.2.1 9, h.2.2 "i" 30000 9 (some (fun _ _ => .ok)) []⟩

/-- C2 witness: the atomic release applied to a concrete row. -/
theorem releaseRunAtomic_semantics_and_scheduler_trace_witness :
    getRunD (releaseRunAtomic [runIdle] "r1" ns0 5) "r1"
      = some (releaseRunAtomicSet 5 ns0 runIdle) :=
  (releaseRunAtomic_semantics_and_scheduler_trace [runIdle] "r1" ns0 5 runIdle
    (by decide)).1.1

/-- C3 witness: a first retry on a fresh unsignalled run goes to `waiting`
with the 2-second backoff and the snapshot's input restored. -/
theorem retry_outcome_mapping_witness :
    ∃ row, getRunD (applyOutcome [runIdle] runIdle (.retry "boom") 100) runIdle.run_id
        = some row
      ∧ row.status = "waiting" ∧ row.attempt = runIdle.attempt + 1
      ∧ row.wake_at = some (100 + min (1000 * 2 ^ (runIdle.attempt + 1)) 60000)
      ∧ row.last_error = some "boom" ∧ row.pending_input = runIdle.pending_input :=
  (retry_outcome_mapping [runIdle] runIdle runIdle "boom" 100 (by decide)).2.1
    (by decide) (by decide)

/-- C4 witness: an `ok` outcome with a signal that arrived during the tick
releases to `pending` with the signal's input intact. -/
theorem ok_outcome_mapping_witness :
    ∃ row, getRunD (applyOutcome [runSignaled] runIdle .ok 7) runIdle.run_id = some row
      ∧ row.status = "pending" ∧ row.attempt = 0 ∧ row.wake_at = none
      ∧ row.last_error = none ∧ row.pending_input = some "new"
      ∧ row.locked_by = none ∧ row.lock_expires_at = none :=
  (ok_outcome_mapping [runSignaled] runIdle runSignaled 7 (by decide)).2 "new" (by decide)

/-- C5 witness: the amended signal-on-terminal behaviour on a concrete `done`
run. -/
theorem signal_terminal_keeps_status_overwrites_input_witness :
    ∃ r2, getRunD (signalRun [runDone] "rT" (some "sig") 4) "rT" = some r2
      ∧ r2.status = runDone.status ∧ r2.pending_input = some "sig" :=
  signal_terminal_keeps_status_overwrites_input [runDone] "rT" (some "sig") 4 runDone
    (by decide) (Or.inl rfl)

/-- C6 witness: a second `read_scoped` on a spent budget returns the
`STORAGE_READ_ALREADY_CALLED` error value with budget and storage untouched. -/
theorem storage_budget_enforced_witness :
    invokeTool regEmpty 5 3 ctx0 db0 sReadDone (.readScoped [])
      = (.errR { code := ERR_STORAGE_READ_ALREADY_CALLED,
                 message := "storage.read_scoped already called for this clog in this tick" },
         sReadDone, db0) := by
  have h := storage_budget_enforced regEmpty 5 2 ctx0 db0 sReadDone
  exact h.1 [] rfl

/-- C7 witness: a write without a prior read of the targeted row fails with
`RBW_VIOLATION` and leaves the storage unchanged. -/
theorem write_scoped_fail_fast_atomic_witness :
    storageWriteScoped db0 ctx0 [.globalSet "v"] emptyLedger 5
        = .error { code := ERR_RBW_VIOLATION,
                   message := "must read global row before writing global row" }
      ∧ storageAfterWrite db0 ctx0 [.globalSet "v"] emptyLedger 5 = db0 :=
  (write_scoped_fail_fast_atomic db0 ctx0 [.globalSet "v"] emptyLedger 5).1
    { code := ERR_RBW_VIOLATION, message := "must read global row before writing global row" }
    (by decide)

/-- C8 witness: `wakeAt = now` is eligible, and with only a terminal run in
the table `advance()` returns `{advanced: 0, results: []}`. -/
theorem acquire_eligibility_witness :
    eligible 5 runWaitingNow = true
      ∧ advanceStep [runDone] "i" 10 5 none []
          = ({ advanced := 0, results := [] }, [runDone]) := by
  have h1 := acquire_eligibility [runWaitingNow] "i" 10 5
  have h2 := acquire_eligibility [runDone] "i" 10 5
  exact ⟨h1.2.2.1 runWaitingNow rfl rfl rfl, h2.2.2.2.1 (by decide) none []⟩

/-- C9 witness: an exhausted caller invokes `clog.b.work`; the callee runs
from a fresh budget and the caller's budget state comes back unchanged. -/
theorem peer_call_budget_isolated_witness :
    invokeTool regB 5 3 ctx0 db0 sExhausted (.clogCall "clog.b.work" none)
      = (.okR (.clogOut progB.result), sExhausted,
         (runCalls regB 5 2
            { clogId := "b", sessionId := ctx0.sessionId, runId := ctx0.runId,
              tickId := ctx0.tickId }
            db0 freshBudget progB.calls).2.2) :=
  (peer_call_budget_isolated regB 5 2 ctx0 db0 sExhausted "clog.b.work" none "b" "work"
    progB (by decide) (by decide)).1

/-- C10 witness: signalling `runIdle` with no input and advancing with an
`ok` handler — the run flips to `pending` with NULL input and the handler
runs with input `none`. -/
theorem omitted_signal_wakes_with_null_input_witness :
    (signalRowUpdate none 3 runIdle).status = "pending"
      ∧ (signalRowUpdate none 3 runIdle).pending_input = none
      ∧ (lockSet "i" (4 + 10) 4 (signalRowUpdate none 3 runIdle)).pending_input = none
      ∧ advanceStep (signalRun [runIdle] "r1" none 3) "i" 10 4
            (some (fun _ _ => .ok)) []
          = ({ advanced := 1,
               results := [(runIdle.run_id,
                 outcomeStatus ((fun _ _ => .ok : Option Val → Nat → TickOutcome)
                   none runIdle.attempt))] },
             applyOutcome
               (applySignals
                 (updateWhere (signalRun [runIdle] "r1" none 3)
                   (fun x => eligible 4 x && x.run_id == (signalRowUpdate none 3 runIdle).run_id)
                   (lockSet "i" (4 + 10) 4))
                 [] 4)
               (lockSet "i" (4 + 10) 4 (signalRowUpdate none 3 runIdle))
               ((fun _ _ => .ok : Option Val → Nat → TickOutcome) none runIdle.attempt) 4) := by
  have h := omitted_signal_wakes_with_null_input [runIdle] "r1" runIdle 3 (by decide)
    (Or.inl rfl) "i" 10 4 (fun _ _ => .ok) [] (by decide)
  exact ⟨h.1, h.2.1, h.2.2.2.1, h.2.2.2.2.2⟩

end OceanClog
